import Mathlib

/-!
# KyberLink gateway: envelope codec, session store, replay store, request pipeline

A shallow embedding of the Go sources under `gateway/crypto` and
`gateway/gateway`, followed by theorems about them.

Conventions of the embedding:

* a Go `byte` is a `Fin 256`; a Go `[]byte` and a Go `string` are both `List Byte`
  (a Go string is a byte sequence);
* library calls that live outside the repository (AES-GCM, HKDF, the system
  random source, base64, ML-KEM, JSON, the HTTP client) are parameters;
* a function that can fail returns `Except`; a Go run-time panic (slice or index
  out of range) is the error value `CryptoError.panicked`;
* `time.Time` and `time.Duration` are integers counting nanoseconds;
* mutable stores are passed explicitly: a method returns its result together
  with the store it leaves behind.
-/

namespace KyberLink

/-! ## Bytes and strings -/

abbrev Byte := Fin 256

abbrev Bytes := List Byte

/-- A Go string: an immutable byte sequence. -/
abbrev GoString := List Byte

/-- The bytes of an ASCII string literal of the source. -/
def ascii (s : String) : GoString :=
  s.toList.map (fun c => (Fin.ofNat c.toNat : Byte))

/-- Go `strings.HasPrefix(s, prefix)`. -/
def HasPrefix (s pre : GoString) : Bool :=
  pre.isPrefixOf s

/-! ## Errors of package `crypto` -/

inductive CryptoError where
  /-- "shared secret must be 32 bytes, got %d" -/
  | secretLength (got : Nat)
  /-- error returned by `rand.Read` -/
  | randRead
  /-- "HKDF derivation failed: %w" -/
  | hkdfFailed
  /-- `aes.KeySizeError` from `aes.NewCipher` -/
  | keySize (got : Nat)
  /-- "salt/IV encryption failed: %w" -/
  | saltIvEncryptFailed (cause : CryptoError)
  /-- "data too short" -/
  | dataTooShort
  /-- "data shorter than declared salt/IV length" -/
  | shorterThanDeclared
  /-- "salt/IV decryption failed: %w" -/
  | saltIvDecryptFailed (cause : CryptoError)
  /-- "invalid salt/IV length" -/
  | invalidSaltIvLength
  /-- "AES-GCM decryption failed: %w" -/
  | gcmDecryptFailed
  /-- "data too short for IV" -/
  | dataTooShortForIV
  /-- "decryption failed: %w" -/
  | directDecryptFailed
  /-- a Go run-time panic (not an error value of the source) -/
  | panicked (what : String)
  deriving DecidableEq, Repr

/-- Whether a result is a Go run-time panic. -/
def isPanic {α : Type} : Except CryptoError α → Bool
  | .error (.panicked _) => true
  | _ => false

/-! ## Slices and indexing, with Go's bounds checks -/

/-- Go `xs[i]`. -/
def index (xs : Bytes) (i : Nat) : Except CryptoError Byte :=
  match xs[i]? with
  | some b => .ok b
  | none => .error (.panicked "index out of range")

/-- Go `xs[lo:hi]` (capacity identified with length). -/
def slice (xs : Bytes) (lo hi : Nat) : Except CryptoError Bytes :=
  if lo ≤ hi ∧ hi ≤ xs.length then .ok ((xs.take hi).drop lo)
  else .error (.panicked "slice bounds out of range")

/-- Go `xs[lo:]`. -/
def sliceFrom (xs : Bytes) (lo : Nat) : Except CryptoError Bytes :=
  slice xs lo xs.length

/-! ## External primitives -/

/-- The library primitives used by `aes.go`: AES-GCM with the key schedule folded
into `Seal`/`Open` (`cipher.AEAD.Seal(nil, nonce, plaintext, aad)` and
`cipher.AEAD.Open(nil, nonce, ciphertext, aad)`), and the output stream of
`hkdf.New(sha256.New, secret, salt, info)`. -/
structure Primitives where
  Seal : (key nonce plaintext aad : Bytes) → Bytes
  Open : (key nonce ciphertext aad : Bytes) → Option Bytes
  hkdf : (secret salt info : Bytes) → Nat → Byte

/-- Functional correctness of the AEAD: opening what was sealed, with the same
key, nonce and associated data, gives the plaintext back. -/
def Primitives.Correct (P : Primitives) : Prop :=
  ∀ key nonce pt aad, P.Open key nonce (P.Seal key nonce pt aad) aad = some pt

/-- GCM appends a 16-byte tag (`gcmTagSize`): `Seal` outputs
`len(plaintext) + 16` bytes. -/
def Primitives.TagOverhead (P : Primitives) : Prop :=
  ∀ key nonce pt aad, (P.Seal key nonce pt aad).length = pt.length + 16

/-- The sealed 28-byte salt/IV, with its 12-byte IV in front, fits the two-byte
length prefix of the frame (with GCM it is 56 bytes long). -/
def Primitives.SaltIvFits (P : Primitives) : Prop :=
  ∀ key nonce pt, key.length = 32 → pt.length = 28 →
    12 + (P.Seal key nonce pt []).length < 65536

/-- The system random source behind `crypto/rand.Read`: an endless byte stream,
a read position, and the positions at which a read reports an error. -/
structure Rand where
  stream : Nat → Byte
  failAt : Nat → Bool
  pos : Nat

/-- Go `rand.Read(b)` with `len(b) = n`: fills all `n` bytes or fails. -/
def Rand.Read (r : Rand) (n : Nat) : Except CryptoError (Bytes × Rand) :=
  if r.failAt r.pos then .error .randRead
  else .ok ((List.range n).map (fun i => r.stream (r.pos + i)), { r with pos := r.pos + n })

/-- Go `aes.NewCipher(key)` followed by `cipher.NewGCM(block)`: fails exactly on a
key that is not 16, 24 or 32 bytes long; the AEAD object is represented by its key. -/
def newGCM (key : Bytes) : Except CryptoError Bytes :=
  if key.length = 16 ∨ key.length = 24 ∨ key.length = 32 then .ok key
  else .error (.keySize key.length)

/-- Go `gcm.Seal(nil, nonce, plaintext, aad)`: panics on a nonce that is not 12 bytes. -/
def gcmSeal (P : Primitives) (key nonce pt aad : Bytes) : Except CryptoError Bytes :=
  if nonce.length = 12 then .ok (P.Seal key nonce pt aad)
  else .error (.panicked "incorrect nonce length given to GCM")

/-- Go `gcm.Open(nil, nonce, ciphertext, aad)`: panics on a nonce that is not 12
bytes; `none` is the authentication error. -/
def gcmOpen (P : Primitives) (key nonce ct aad : Bytes) : Except CryptoError (Option Bytes) :=
  if nonce.length = 12 then .ok (P.Open key nonce ct aad)
  else .error (.panicked "incorrect nonce length given to GCM")

/-! ## `crypto/aes.go` -/

/-- The info string `fmt.Sprintf("kyberlink:v1|session=%s", sessionID)`. -/
def sessionInfo (sessionID : GoString) : GoString :=
  ascii "kyberlink:v1|session=" ++ sessionID

/-- The loop `for i := 0; i < 32; i++ { ss2[i] = sharedSecret[31-i] }`, from
index `i` on, with `n` iterations left; returns `ss2[i:]`. -/
def reverseLoop (sharedSecret : Bytes) : (n : Nat) → (i : Nat) → Except CryptoError Bytes
  | 0, _ => .ok []
  | n + 1, i =>
    match index sharedSecret (31 - i) with
    | .error e => .error e
    | .ok b =>
      match reverseLoop sharedSecret n (i + 1) with
      | .error e => .error e
      | .ok rest => .ok (b :: rest)

/-- The byte-reversed secret `ss2` built by both `EncryptAESGCMWithSession` and
`DecryptAESGCMWithSession`. -/
def reverseSecret (sharedSecret : Bytes) : Except CryptoError Bytes :=
  reverseLoop sharedSecret 32 0

/-- Go `deriveAESKeyHKDF`: reads 32 bytes of the HKDF-SHA-256 stream, which
holds `255 * 32` bytes. -/
def deriveAESKeyHKDF (P : Primitives) (sharedSecret salt : Bytes) (info : GoString) :
    Except CryptoError Bytes :=
  if 32 ≤ 255 * 32 then .ok ((List.range 32).map (P.hkdf sharedSecret salt info))
  else .error .hkdfFailed

/-- Go `EncryptWithDirectKey`: output is IV ++ ciphertext. -/
def EncryptWithDirectKey (P : Primitives) (r : Rand) (data key : Bytes) :
    Except CryptoError (Bytes × Rand) :=
  match slice key 0 32 with
  | .error e => .error e
  | .ok k =>
    match newGCM k with
    | .error e => .error e
    | .ok gcm =>
      match r.Read 12 with
      | .error e => .error e
      | .ok (iv, r1) =>
        match gcmSeal P gcm iv data [] with
        | .error e => .error e
        | .ok ciphertext => .ok (iv ++ ciphertext, r1)

/-- Go `DecryptWithDirectKey`: input is IV ++ ciphertext. -/
def DecryptWithDirectKey (P : Primitives) (encryptedData key : Bytes) :
    Except CryptoError Bytes :=
  match slice key 0 32 with
  | .error e => .error e
  | .ok k =>
    match newGCM k with
    | .error e => .error e
    | .ok gcm =>
      if encryptedData.length < 12 then .error .dataTooShortForIV
      else
        match slice encryptedData 0 12 with
        | .error e => .error e
        | .ok nonce =>
          match sliceFrom encryptedData 12 with
          | .error e => .error e
          | .ok ct =>
            match gcmOpen P gcm nonce ct [] with
            | .error e => .error e
            | .ok none => .error .directDecryptFailed
            | .ok (some plaintext) => .ok plaintext

/-- Go `EncryptAESGCMWithSession`: returns `(encryptedData, encryptedSaltIv)`. -/
def EncryptAESGCMWithSession (P : Primitives) (r : Rand) (data sharedSecret : Bytes)
    (sessionID : GoString) : Except CryptoError (Bytes × Bytes) :=
  if sharedSecret.length ≠ 32 then .error (.secretLength sharedSecret.length)
  else
    let ss1 := sharedSecret
    match reverseSecret sharedSecret with
    | .error e => .error e
    | .ok ss2 =>
      match r.Read 16 with
      | .error e => .error e
      | .ok (salt, r1) =>
        match r1.Read 12 with
        | .error e => .error e
        | .ok (iv, r2) =>
          let info := sessionInfo sessionID
          match deriveAESKeyHKDF P ss1 salt info with
          | .error _ => .error .hkdfFailed
          | .ok aesKey =>
            match newGCM aesKey with
            | .error e => .error e
            | .ok gcm =>
              match gcmSeal P gcm iv data info with
              | .error e => .error e
              | .ok encryptedData =>
                let saltIvCombined := salt ++ iv
                match EncryptWithDirectKey P r2 saltIvCombined ss2 with
                | .error (.panicked w) => .error (.panicked w)
                | .error e => .error (.saltIvEncryptFailed e)
                | .ok (encryptedSaltIv, _) => .ok (encryptedData, encryptedSaltIv)

/-- Go `DecryptAESGCMWithSession`; the input is
`[2-byte length prefix] ++ encrypted_salt_iv ++ encrypted_payload`. -/
def DecryptAESGCMWithSession (P : Primitives) (encryptedData sharedSecret : Bytes)
    (sessionID : GoString) : Except CryptoError Bytes :=
  if sharedSecret.length ≠ 32 then .error (.secretLength sharedSecret.length)
  else
    let ss1 := sharedSecret
    match reverseSecret sharedSecret with
    | .error e => .error e
    | .ok ss2 =>
      if encryptedData.length < 2 then .error .dataTooShort
      else
        match index encryptedData 0, index encryptedData 1 with
        | .error e, _ => .error e
        | _, .error e => .error e
        | .ok b0, .ok b1 =>
          let encSaltIvLen := (b0.val <<< 8) ||| b1.val
          if encryptedData.length < 2 + encSaltIvLen then .error .shorterThanDeclared
          else
            match slice encryptedData 2 (2 + encSaltIvLen) with
            | .error e => .error e
            | .ok encryptedSaltIv =>
              match sliceFrom encryptedData (2 + encSaltIvLen) with
              | .error e => .error e
              | .ok encryptedPayload =>
                match DecryptWithDirectKey P encryptedSaltIv ss2 with
                | .error (.panicked w) => .error (.panicked w)
                | .error e => .error (.saltIvDecryptFailed e)
                | .ok saltIvBytes =>
                  if saltIvBytes.length ≠ 28 then .error .invalidSaltIvLength
                  else
                    match slice saltIvBytes 0 16 with
                    | .error e => .error e
                    | .ok salt =>
                      match slice saltIvBytes 16 28 with
                      | .error e => .error e
                      | .ok iv =>
                        let info := sessionInfo sessionID
                        match deriveAESKeyHKDF P ss1 salt info with
                        | .error _ => .error .hkdfFailed
                        | .ok aesKey =>
                          match newGCM aesKey with
                          | .error e => .error e
                          | .ok gcm =>
                            match gcmOpen P gcm iv encryptedPayload info with
                            | .error e => .error e
                            | .ok none => .error .gcmDecryptFailed
                            | .ok (some plaintext) => .ok plaintext

/-- The inbound frame of the wire contract, built from the two parts that
`EncryptAESGCMWithSession` returns: two big-endian length bytes (each truncated
to a byte), then `encSaltIv`, then `encData`. -/
def buildFrame (encData encSaltIv : Bytes) : Bytes :=
  [(Fin.ofNat (encSaltIv.length >>> 8) : Byte), (Fin.ofNat (encSaltIv.length &&& 0xff) : Byte)]
    ++ encSaltIv ++ encData

/-! ## `crypto/utils.go` -/

inductive HexError where
  /-- "invalid hex length: %d" -/
  | invalidLength (len : Nat)
  /-- "invalid hex char at position %d" -/
  | invalidChar (pos : Nat)
  /-- run-time panic: index out of range -/
  | panicked
  deriving DecidableEq, Repr

/-- Go `hexCharToByte`; the arithmetic is on bytes and wraps modulo 256. -/
def hexCharToByte (c : Byte) : Byte :=
  if 48 ≤ c.val ∧ c.val ≤ 57 then c - 48
  else if 97 ≤ c.val ∧ c.val ≤ 102 then c - 97 + 10
  else if 65 ≤ c.val ∧ c.val ≤ 70 then c - 65 + 10
  else 255

/-- Go `high<<4 | low` on bytes: the shift is truncated to eight bits. -/
def packNibbles (high low : Byte) : Byte :=
  Fin.ofNat (((high.val <<< 4) % 256) ||| low.val)

/-- The loop of `DecodeHex`, `for i := 0; i < len(hexStr); i += 2`, on the part
of `hexStr` from position `i` on; returns `result[i/2:]`. -/
def decodeHexLoop : (rest : GoString) → (i : Nat) → Except HexError Bytes
  | [], _ => .ok []
  | [_], _ => .error .panicked
  | c0 :: c1 :: rest, i =>
    let high := hexCharToByte c0
    let low := hexCharToByte c1
    if high = 255 ∨ low = 255 then .error (.invalidChar i)
    else
      match decodeHexLoop rest (i + 2) with
      | .error e => .error e
      | .ok result => .ok (packNibbles high low :: result)

/-- Go `DecodeHex`. -/
def DecodeHex (hexStr : GoString) : Except HexError Bytes :=
  if hexStr.length % 2 ≠ 0 then .error (.invalidLength hexStr.length)
  else decodeHexLoop hexStr 0

/-- Specification side: the value of a hexadecimal digit character
(`0-9`, `a-f`, `A-F`), and `none` for any other character. -/
def hexDigitValue (c : Byte) : Option Nat :=
  if 48 ≤ c.val ∧ c.val ≤ 57 then some (c.val - 48)
  else if 97 ≤ c.val ∧ c.val ≤ 102 then some (c.val - 97 + 10)
  else if 65 ≤ c.val ∧ c.val ≤ 70 then some (c.val - 65 + 10)
  else none

/-! ## Time and maps -/

/-- A `time.Time`, in nanoseconds since the Unix epoch. -/
abbrev Time := Int

/-- A `time.Duration`, in nanoseconds.  `time.Sub` saturates at the ends of
`int64`; a saturated difference compares with a TTL the same way the exact
difference does, so differences are exact here. -/
abbrev Duration := Int

/-- One second, `time.Second`. -/
def Second : Duration := 1000000000

/-- One minute, `time.Minute`. -/
def Minute : Duration := 60 * Second

/-- A Go `map[string]V`: a finite map without duplicate keys. -/
abbrev GoMap (V : Type) := AList (fun _ : GoString => V)

/-! ## `gateway/session.go` -/

/-- ML-KEM-1024 private key (opaque key material). -/
structure PrivateKey where
  raw : Bytes
  deriving DecidableEq, Repr

/-- ML-KEM-1024 public key (opaque key material). -/
structure PublicKey where
  raw : Bytes
  deriving DecidableEq, Repr

structure SessionKey where
  SessionID : GoString
  PublicKey : PublicKey
  PrivateKey : PrivateKey
  CreatedAt : Time
  ExpiresAt : Time
  deriving DecidableEq, Repr

structure SessionStore where
  sessions : GoMap SessionKey
  ttl : Duration
  deriving DecidableEq

inductive SessionError where
  /-- "session not found" -/
  | notFound
  /-- "session expired" -/
  | expired
  deriving DecidableEq, Repr

/-- Go `SessionStore.GetSessionPrivateKey`, at clock reading `now`; returns the
result and the store as the method leaves it. -/
def SessionStore.GetSessionPrivateKey (s : SessionStore) (now : Time) (sessionID : GoString) :
    Except SessionError PrivateKey × SessionStore :=
  match s.sessions.lookup sessionID with
  | none => (.error .notFound, s)
  | some key =>
    if now > key.ExpiresAt then (.error .expired, s)
    else (.ok key.PrivateKey, s)

/-- Go `SessionStore.DeleteSession`. -/
def SessionStore.DeleteSession (s : SessionStore) (sessionID : GoString) : SessionStore :=
  match s.sessions.lookup sessionID with
  | some _ => { s with sessions := s.sessions.erase sessionID }
  | none => s

/-! ## `gateway/security.go` -/

structure ReplayProtectionStore where
  seenNonces : GoMap Time
  ttl : Duration
  deriving DecidableEq

/-- The store that `InitSecurity` creates. -/
def InitSecurity : ReplayProtectionStore :=
  { seenNonces := ∅, ttl := 60 * Second }

/-- Go `ReplayProtectionStore.IsReplay`, at clock reading `now`; `timestamp` is
in Unix seconds (`time.Unix(timestamp, 0)`).  Returns the verdict and the store
as the method leaves it. -/
def ReplayProtectionStore.IsReplay (s : ReplayProtectionStore) (now : Time) (nonce : GoString)
    (timestamp : Int) : Bool × ReplayProtectionStore :=
  let reqTime : Time := timestamp * Second
  if now - reqTime > s.ttl then (true, s)
  else if reqTime - now > s.ttl then (true, s)
  else
    match s.seenNonces.lookup nonce with
    | some _ => (true, s)
    | none => (false, { s with seenNonces := s.seenNonces.insert nonce now })

/-- Go `ReplayProtectionStore.cleanup`, at clock reading `now`: the `range` loop
visits the entries present at the start and deletes from the map as it goes. -/
def ReplayProtectionStore.cleanup (s : ReplayProtectionStore) (now : Time) :
    ReplayProtectionStore :=
  { s with
    seenNonces :=
      s.seenNonces.entries.foldl
        (fun m e => if now - e.2 > s.ttl then m.erase e.1 else m) s.seenNonces }

/-! ## `gateway/types.go` -/

structure KyberLinkRequest where
  Version : Int
  SessionID : GoString
  ClientPublicKey : GoString
  SecretCiphertext : GoString
  EncryptedData : GoString
  deriving DecidableEq, Repr

structure KyberLinkResponse where
  Version : Int
  SecretCiphertext : GoString
  EncryptedData : GoString
  deriving DecidableEq, Repr

/-- A non-nil `interface{}` produced by the JSON decoder, kept as its JSON text. -/
structure JsonValue where
  text : Bytes
  deriving DecidableEq, Repr

structure GatewayRequestPayload where
  FinalAPI : GoString
  Method : GoString
  Payload : Option JsonValue
  Timestamp : Int
  Nonce : GoString
  deriving DecidableEq, Repr

/-! ## `gateway/handler.go` -/

/-- The body of an HTTP response written with `c.JSON`. -/
inductive ResponseBody where
  /-- `gin.H{"error": msg}` -/
  | error (msg : String)
  /-- a `KyberLinkResponse` -/
  | envelope (r : KyberLinkResponse)
  deriving DecidableEq, Repr

structure Response where
  status : Nat
  body : ResponseBody
  deriving DecidableEq, Repr

/-- The request that `http.NewRequest` builds, with the two headers set on it. -/
structure ProxyRequest where
  method : GoString
  url : GoString
  body : Option Bytes
  headers : List (String × String)
  deriving DecidableEq, Repr

/-- The body of a backend response, as the reader `resp.Body`: the bytes it
yields, and whether the stream then ends in a read error instead of `io.EOF`. -/
structure BackendBody where
  data : Bytes
  readError : Bool
  deriving DecidableEq, Repr

/-- What the transport gives for one request (`http.RoundTripper.RoundTrip`): a
transport error; an answer that the client's redirect policy follows (a `3xx`
with a `Location`), with the request that the client derives from it; or any
other answer, which is the final response. -/
inductive Exchange where
  | failed
  | redirect (next : ProxyRequest)
  | response (body : BackendBody)
  deriving DecidableEq, Repr

/-- Go `http.Client.Do` for a client without `CheckRedirect`, as built in the
handler (`&http.Client{Timeout: 30 * time.Second}`): every redirect answer is
followed, and after ten requests a further redirect is the error "stopped after
10 redirects".  `budget` is the number of requests still allowed.  Returns the
requests put on the wire, oldest first, and the final response, or `none` for
an error. -/
def clientDo (roundTrip : ProxyRequest → Exchange) :
    (budget : Nat) → ProxyRequest → List ProxyRequest × Option BackendBody
  | 0, _ => ([], none)
  | budget + 1, req =>
    match roundTrip req with
    | .failed => ([req], none)
    | .response body => ([req], some body)
    | .redirect next =>
      (req :: (clientDo roundTrip budget next).1, (clientDo roundTrip budget next).2)

/-- What the handler does to the backend. -/
inductive Effect where
  /-- `http.NewRequest` returned this request -/
  | built (r : ProxyRequest)
  /-- the HTTP client put this request on the wire, inside `client.Do` -/
  | sent (r : ProxyRequest)
  deriving DecidableEq, Repr

/-- Go `io.ReadAll(io.LimitReader(body, limit))`: the limited reader reports
`io.EOF` once `limit` bytes have been read, so a longer body is cut to its first
`limit` bytes without an error; a read error of the body is seen only when the
body ends before the limit. -/
def readAllLimited (body : BackendBody) (limit : Nat) : Option Bytes :=
  if limit ≤ body.data.length then some (body.data.take limit)
  else if body.readError then none
  else some body.data

/-- The limit `10<<20` of the handler. -/
def responseLimit : Nat := 10 <<< 20

/-- The surroundings of the handler: the package variable `BackendURL`, and the
library calls it makes. -/
structure Env where
  P : Primitives
  BackendURL : GoString
  /-- `c.ShouldBindJSON(&req)` on the request body -/
  ShouldBindJSON : Bytes → Option KyberLinkRequest
  /-- `base64.StdEncoding.DecodeString` -/
  Base64Decode : GoString → Option Bytes
  /-- `base64.StdEncoding.EncodeToString` -/
  Base64Encode : Bytes → GoString
  /-- `kcq.Scheme().Decapsulate` -/
  Decapsulate : PrivateKey → Bytes → Option Bytes
  /-- `json.Unmarshal(decryptedJSON, &payload)` -/
  jsonUnmarshal : Bytes → Option GatewayRequestPayload
  /-- `json.Marshal(payload.Payload)` -/
  jsonMarshal : JsonValue → Bytes
  /-- whether `http.NewRequest(method, url, body)` accepts the method and URL -/
  newRequestOk : GoString → GoString → Bool
  /-- the transport of the HTTP client: one request, one answer -/
  RoundTrip : ProxyRequest → Exchange
  /-- `kcq.Scheme().UnmarshalBinaryPublicKey` -/
  UnmarshalPublicKey : Bytes → Option PublicKey
  /-- `kcq.Scheme().Encapsulate`: ciphertext and shared secret -/
  Encapsulate : PublicKey → Option (Bytes × Bytes)

/-- The result of `client.Do(proxyReq)` in the handler: the final response body,
or `none` for an error. -/
def Env.Do (env : Env) (req : ProxyRequest) : Option BackendBody :=
  (clientDo env.RoundTrip 10 req).2

/-- The requests that `client.Do(proxyReq)` puts on the wire: `proxyReq`, then
one more for each redirect it follows. -/
def Env.wire (env : Env) (req : ProxyRequest) : List ProxyRequest :=
  (clientDo env.RoundTrip 10 req).1

/-- The two process-wide stores, `GlobalSessionStore` and `GlobalReplayStore`. -/
structure GatewayState where
  sessions : SessionStore
  replay : ReplayProtectionStore
  deriving DecidableEq

/-- One run of a handler: the response written, the stores afterwards, and the
backend traffic, oldest first. -/
structure Outcome where
  response : Response
  state : GatewayState
  effects : List Effect

/-- `c.JSON(status, gin.H{"error": msg}); return`. -/
def reject (st : GatewayState) (effects : List Effect) (status : Nat) (msg : String) : Outcome :=
  { response := { status := status, body := .error msg }, state := st, effects := effects }

/-- Phase 4 of `HandleGateway` (from `crypto.Base64Decode(req.ClientPublicKey)`
to the end), for the response body `respBody` read from the backend. -/
def secureResponse (env : Env) (r : Rand) (st : GatewayState) (effects : List Effect)
    (req : KyberLinkRequest) (respBody : Bytes) : Outcome :=
  match env.Base64Decode req.ClientPublicKey with
  | none => reject st effects 400 "Invalid public_2 key"
  | some clientPubBytes =>
    match env.UnmarshalPublicKey clientPubBytes with
    | none => reject st effects 400 "Unmarshal public_2 failed"
    | some clientPub =>
      match env.Encapsulate clientPub with
      | none => reject st effects 500 "Response Encap failure"
      | some (kyberCiphertextResp, sharedSecretResponse) =>
        match EncryptAESGCMWithSession env.P r respBody sharedSecretResponse req.SessionID with
        | .error _ => reject st effects 500 "Response Encryption failure"
        | .ok (encData, encSaltIv) =>
          let combinedSecret := kyberCiphertextResp ++ encSaltIv
          { response :=
              { status := 200
                body := .envelope
                  { Version := 1
                    SecretCiphertext := env.Base64Encode combinedSecret
                    EncryptedData := env.Base64Encode encData } }
            state := st
            effects := effects }

/-- Phase 3 of `HandleGateway`: path validation of the decrypted inner request
`payload` and the backend call. -/
def forward (env : Env) (r : Rand) (st : GatewayState) (req : KyberLinkRequest)
    (payload : GatewayRequestPayload) : Outcome :=
  let targetURL := payload.FinalAPI
  if HasPrefix targetURL (ascii "http://") || HasPrefix targetURL (ascii "https://") then
    reject st [] 400 "Absolute URLs not allowed"
  else if !HasPrefix targetURL (ascii "/") then
    reject st [] 400 "Invalid API path"
  else
    let targetURL := env.BackendURL ++ targetURL
    let bodyReader := payload.Payload.map env.jsonMarshal
    if !env.newRequestOk payload.Method targetURL then
      reject st [] 500 "Internal Proxy Error"
    else
      let proxyReq : ProxyRequest :=
        { method := payload.Method, url := targetURL, body := bodyReader,
          headers := [("Content-Type", "application/json"), ("X-Kyber-Proxy", "true")] }
      let traffic := Effect.built proxyReq :: (env.wire proxyReq).map Effect.sent
      match env.Do proxyReq with
      | none => reject st traffic 502 "Backend unreachable"
      | some resp =>
        match readAllLimited resp responseLimit with
        | none => reject st traffic 500 "Read Error"
        | some respBody => secureResponse env r st traffic req respBody

/-- The statements of `HandleGateway` after `defer GlobalSessionStore.DeleteSession`
has been registered, up to the replay check; `now` is the clock reading of
`IsReplay`.  The decryption returns an error value or a plaintext and never
panics (`decrypt_no_panic`), so `err != nil` is the whole of its failure. -/
def afterLookup (env : Env) (r : Rand) (now : Time) (st : GatewayState)
    (req : KyberLinkRequest) (privKey : PrivateKey) : Outcome :=
  match env.Base64Decode req.SecretCiphertext with
  | none => reject st [] 400 "Invalid secret ciphertext"
  | some secretCiphertext =>
    match env.Decapsulate privKey secretCiphertext with
    | none => reject st [] 400 "Decapsulation failed"
    | some sharedSecret =>
      match env.Base64Decode req.EncryptedData with
      | none => reject st [] 400 "Invalid data encoding"
      | some encryptedPayload =>
        match DecryptAESGCMWithSession env.P encryptedPayload sharedSecret req.SessionID with
        | .error _ => reject st [] 400 "Decryption failed"
        | .ok decryptedJSON =>
          match env.jsonUnmarshal decryptedJSON with
          | none => reject st [] 400 "Invalid JSON"
          | some payload =>
            match st.replay.IsReplay now payload.Nonce payload.Timestamp with
            | (true, replay) =>
              reject { st with replay := replay } [] 401 "Replay Detected"
            | (false, replay) =>
              forward env r { st with replay := replay } req payload

/-- Go `HandleGateway` on the request body `body`; `nowLookup` and `nowReplay` are
the clock readings of `GetSessionPrivateKey` and of `IsReplay`.  The deferred
`DeleteSession` runs when the function returns, on every path after it was
registered. -/
def HandleGateway (env : Env) (r : Rand) (nowLookup nowReplay : Time) (st : GatewayState)
    (body : Bytes) : Outcome :=
  match env.ShouldBindJSON body with
  | none => reject st [] 400 "Invalid request format"
  | some req =>
    let sessionID := req.SessionID
    match st.sessions.GetSessionPrivateKey nowLookup sessionID with
    | (.error _, sessions) =>
      reject { st with sessions := sessions } [] 401 "Invalid or expired session"
    | (.ok privKey, sessions) =>
      let out := afterLookup env r nowReplay { st with sessions := sessions } req privKey
      { out with
        state := { out.state with sessions := out.state.sessions.DeleteSession sessionID } }

/-! ## Predicates on runs of the handler -/

/-- The failure points of the claim on failure responses. -/
inductive Stage where
  | decapsulation
  | decryption
  deriving DecidableEq, Repr

/-- The error message of the response at each failure point (handler.go, lines
59 and 74). -/
def failureMessage : Stage → String
  | .decapsulation => "Decapsulation failed"
  | .decryption => "Decryption failed"

/-- The run of `HandleGateway` on `body` passes the session lookup and then
fails at the given stage. -/
def FailsAt (env : Env) (nowLookup : Time) (st : GatewayState) (body : Bytes) : Stage → Prop
  | .decapsulation =>
    ∃ req privKey ct,
      env.ShouldBindJSON body = some req ∧
      (st.sessions.GetSessionPrivateKey nowLookup req.SessionID).1 = .ok privKey ∧
      env.Base64Decode req.SecretCiphertext = some ct ∧
      env.Decapsulate privKey ct = none
  | .decryption =>
    ∃ req privKey ct ss frame e,
      env.ShouldBindJSON body = some req ∧
      (st.sessions.GetSessionPrivateKey nowLookup req.SessionID).1 = .ok privKey ∧
      env.Base64Decode req.SecretCiphertext = some ct ∧
      env.Decapsulate privKey ct = some ss ∧
      env.Base64Decode req.EncryptedData = some frame ∧
      DecryptAESGCMWithSession env.P frame ss req.SessionID = .error e

/-- The run of `HandleGateway` on `body` gets as far as the path validation, with
outer request `req` and decrypted inner request `payload`. -/
def ReachesValidation (env : Env) (nowLookup nowReplay : Time) (st : GatewayState) (body : Bytes)
    (req : KyberLinkRequest) (payload : GatewayRequestPayload) : Prop :=
  ∃ privKey ct ss frame json,
    env.ShouldBindJSON body = some req ∧
    (st.sessions.GetSessionPrivateKey nowLookup req.SessionID).1 = .ok privKey ∧
    env.Base64Decode req.SecretCiphertext = some ct ∧
    env.Decapsulate privKey ct = some ss ∧
    env.Base64Decode req.EncryptedData = some frame ∧
    DecryptAESGCMWithSession env.P frame ss req.SessionID = .ok json ∧
    env.jsonUnmarshal json = some payload ∧
    (st.replay.IsReplay nowReplay payload.Nonce payload.Timestamp).1 = false

/-- The request that the handler builds for the inner request `payload`. -/
def proxyRequestOf (env : Env) (payload : GatewayRequestPayload) : ProxyRequest :=
  { method := payload.Method, url := env.BackendURL ++ payload.FinalAPI,
    body := payload.Payload.map env.jsonMarshal,
    headers := [("Content-Type", "application/json"), ("X-Kyber-Proxy", "true")] }


/-! ## An executable instance of the primitives -/

/-- A length-prefixed field: the length in unary, a zero, then the bytes. -/
def modelField (x : Bytes) : Bytes :=
  List.replicate x.length (1 : Byte) ++ (0 : Byte) :: x

/-- Sealing in the model: key and associated data, each as a field, in front of
the plaintext. -/
def modelSeal (key _nonce pt aad : Bytes) : Bytes :=
  modelField key ++ (modelField aad ++ pt)

/-- Opening in the model: accepts exactly the ciphertexts that start with the
fields of this key and this associated data, and returns the rest. -/
def modelOpen (key _nonce ct aad : Bytes) : Option Bytes :=
  if (modelField key ++ modelField aad).isPrefixOf ct then
    some (ct.drop (modelField key ++ modelField aad).length)
  else none

/-- A symbolic AEAD (a ciphertext names its key and associated data) with a
toy key-derivation stream; it meets `Correct` and `SaltIvFits`. -/
def modelPrimitives : Primitives :=
  { Seal := modelSeal, Open := modelOpen,
    hkdf := fun secret salt info i => (secret ++ salt ++ info).getD i 0 }

/-- A random source that never fails and yields the bytes 0, 1, 2, … -/
def countingRand : Rand := { stream := fun i => Fin.ofNat i, failAt := fun _ => false, pos := 0 }


/-! ## Session ids, and an instance of the primitives with a 16-byte tag -/

/-- A session id as `generateRandomID` makes them (`EncodeHex` of 32 random
bytes): 64 lowercase hexadecimal characters. -/
def IsSessionID (S : GoString) : Prop :=
  S.length = 64 ∧ ∀ c ∈ S, (48 ≤ c.val ∧ c.val ≤ 57) ∨ (97 ≤ c.val ∧ c.val ≤ 102)

/-- The lowercase hexadecimal character of a digit. -/
def hexDigitChar (d : Fin 16) : Byte :=
  if d.val < 10 then Fin.ofNat (48 + d.val) else Fin.ofNat (87 + d.val)

/-- The session id with the given 64 hexadecimal digits. -/
def sessionIdOf (digits : Fin 64 → Fin 16) : GoString :=
  List.ofFn (fun i => hexDigitChar (digits i))

/-- A 16-byte checksum of key, nonce and associated data. -/
def modelTag (key nonce aad : Bytes) : Bytes :=
  (List.range 16).map (fun i =>
    (Fin.ofNat ((key ++ nonce ++ aad).foldl (fun acc b => (31 * acc + b.val + i) % 256) (7 + i))
      : Byte))

/-- Sealing with a tag: the plaintext followed by the 16-byte checksum. -/
def tagSeal (key nonce pt aad : Bytes) : Bytes :=
  pt ++ modelTag key nonce aad

/-- Opening with a tag: accepts a ciphertext whose last 16 bytes are the
checksum, and returns what is in front of them. -/
def tagOpen (key nonce ct aad : Bytes) : Option Bytes :=
  if 16 ≤ ct.length ∧ ct.drop (ct.length - 16) = modelTag key nonce aad then
    some (ct.take (ct.length - 16))
  else none

/-- An AEAD of the shape of GCM (`len(plaintext) + 16` bytes of output), with a
toy key-derivation stream that depends on the info string; it meets `Correct`
and `TagOverhead`. -/
def tagPrimitives : Primitives :=
  { Seal := tagSeal, Open := tagOpen,
    hkdf := fun secret salt info i =>
      Fin.ofNat ((secret ++ salt ++ info).foldl (fun acc b => (131 * acc + b.val + i) % 256) i) }

/-! ## An executable instance of the gateway -/

/-- The outer request that `modelEnv` reads from a request body: the first 1568
bytes are the KEM ciphertext, the rest is the encrypted frame. -/
def modelRequest (body : Bytes) : KyberLinkRequest :=
  { Version := 1, SessionID := ascii "session-1", ClientPublicKey := List.replicate 1568 0,
    SecretCiphertext := body.take 1568, EncryptedData := body.drop 1568 }

/-- The inner request that `modelEnv` reads from the decrypted bytes: they are
its `finalApi`. -/
def modelPayload (json : Bytes) : GatewayRequestPayload :=
  { FinalAPI := json, Method := ascii "POST", Payload := none, Timestamp := 0,
    Nonce := ascii "n-1" }

/-- A gateway environment over `modelPrimitives`, for a given backend that never
redirects.  The wire codings are the simplest possible: base64 is the identity,
and a KEM ciphertext of the right size (1568 bytes) decapsulates to its first
32 bytes. -/
def modelEnv (backend : ProxyRequest → Option BackendBody) : Env :=
  { P := modelPrimitives
    BackendURL := ascii "http://localhost:34890"
    ShouldBindJSON := fun body => some (modelRequest body)
    Base64Decode := fun s => some s
    Base64Encode := fun b => b
    Decapsulate := fun _ ct => if ct.length = 1568 then some (ct.take 32) else none
    jsonUnmarshal := fun json => some (modelPayload json)
    jsonMarshal := fun v => v.text
    newRequestOk := fun _ _ => true
    RoundTrip := fun pr =>
      match backend pr with
      | some body => .response body
      | none => .failed
    UnmarshalPublicKey := fun b => if b.length = 1568 then some { raw := b } else none
    Encapsulate := fun pk => some (List.replicate 1568 0, pk.raw.take 32) }

/-- A state with the one live session `session-1` and an empty replay store. -/
def modelState : GatewayState :=
  { sessions :=
      { sessions := AList.singleton (ascii "session-1")
          { SessionID := ascii "session-1", PublicKey := { raw := [] },
            PrivateKey := { raw := [] }, CreatedAt := 0, ExpiresAt := 5 * Minute }
        ttl := 5 * Minute }
    replay := InitSecurity }

/-- The request body, in the coding of `modelEnv`, whose inner request has the
given `finalApi`. -/
def modelBody (finalApi : GoString) : Bytes :=
  match EncryptAESGCMWithSession modelPrimitives countingRand finalApi (List.replicate 32 0)
      (ascii "session-1") with
  | .ok (encData, encSaltIv) => List.replicate 1568 0 ++ buildFrame encData encSaltIv
  | .error _ => []

/-- A backend that answers with the URL it was asked for. -/
def echoBackend : ProxyRequest → Option BackendBody :=
  fun pr => some { data := pr.url, readError := false }

/-- The environment of `modelEnv echoBackend`, except that the backend answers
the request for `/test1` with a redirect to `http://evil.example/pwn`. -/
def redirectEnv : Env :=
  { modelEnv echoBackend with
    RoundTrip := fun pr =>
      if pr.url = ascii "http://localhost:34890/test1" then
        .redirect { pr with url := ascii "http://evil.example/pwn" }
      else .response { data := pr.url, readError := false } }

/-- A backend whose response body is one byte longer than 10 MiB. -/
def oversizeBackend : ProxyRequest → Option BackendBody :=
  fun _ => some { data := List.replicate (10 * 2 ^ 20 + 1) 0, readError := false }

/-- The replay store after `n-1` was recorded at time 0 and the reaper ran at 60 s. -/
def sweptStore : ReplayProtectionStore :=
  (InitSecurity.IsReplay 0 (ascii "n-1") 0).2.cleanup (60 * Second)

/-! ## Frames and call sequences -/

/-- Specification side: the declared length `L = 256 * F[0] + F[1]` of a frame
(a missing byte counts as zero). -/
def declaredLength (F : Bytes) : Nat :=
  256 * (F.getD 0 0).val + (F.getD 1 0).val

/-- One call on the replay store, with the clock reading it sees: a call of
`IsReplay` from a handler, or a call of `cleanup` from `cleanupLoop`. -/
inductive ReplayEvent where
  | isReplay (now : Time) (nonce : GoString) (timestamp : Int)
  | cleanup (now : Time)
  deriving DecidableEq, Repr

/-- The clock reading of a call. -/
def ReplayEvent.time : ReplayEvent → Time
  | .isReplay now _ _ => now
  | .cleanup now => now

/-- The store after one call; the mutex makes the calls atomic. -/
def ReplayProtectionStore.step (s : ReplayProtectionStore) : ReplayEvent → ReplayProtectionStore
  | .isReplay now nonce timestamp => (s.IsReplay now nonce timestamp).2
  | .cleanup now => s.cleanup now

/-- The store after a sequence of calls, oldest first. -/
def ReplayProtectionStore.run (s : ReplayProtectionStore) (events : List ReplayEvent) :
    ReplayProtectionStore :=
  events.foldl ReplayProtectionStore.step s

/-- Whether some call of the sequence, run from `s`, records `nonce`: an
`IsReplay` call for it that returns false. -/
def ReplayProtectionStore.records (s : ReplayProtectionStore) (nonce : GoString) :
    List ReplayEvent → Bool
  | [] => false
  | .isReplay now n timestamp :: rest =>
    (decide (n = nonce) && !(s.IsReplay now n timestamp).1) ||
      (s.step (.isReplay now n timestamp)).records nonce rest
  | .cleanup now :: rest => (s.step (.cleanup now)).records nonce rest

/-! # Theorems -/

/-! ## Envelope codec -/

theorem reverseLoop_eq (ss : Bytes) (hlen : ss.length = 32) :
    ∀ n i, i + n = 32 → reverseLoop ss n i = .ok (ss.reverse.drop i) := by
  intro n
  induction n with
  | zero =>
    intro i hi
    have : ss.reverse.length ≤ i := by simp; omega
    simp [reverseLoop, List.drop_eq_nil_of_le this]
  | succ n ih =>
    intro i hi
    have h1 : 31 - i < ss.length := by omega
    have h2 : i < ss.reverse.length := by simp; omega
    rw [reverseLoop, ih (i + 1) (by omega)]
    simp only [index, List.getElem?_eq_getElem h1]
    rw [List.drop_eq_getElem_cons h2, List.getElem_reverse]
    simp [hlen]

theorem reverseSecret_eq (ss : Bytes) (hlen : ss.length = 32) :
    reverseSecret ss = .ok ss.reverse := by
  simpa using reverseLoop_eq ss hlen 32 0 rfl

theorem prefix_decode (L : Nat) (hL : L < 65536) :
    (((Fin.ofNat (L >>> 8) : Byte).val <<< 8) ||| (Fin.ofNat (L &&& 0xff) : Byte).val) = L := by
  have h1 : (Fin.ofNat (L >>> 8) : Byte).val = L / 256 := by
    show (L >>> 8) % 256 = L / 256
    rw [Nat.shiftRight_eq_div_pow]
    exact Nat.mod_eq_of_lt (by omega)
  have h2 : (Fin.ofNat (L &&& 0xff) : Byte).val = L % 256 := by
    show (L &&& 255) % 256 = L % 256
    rw [show (255 : Nat) = 2 ^ 8 - 1 by norm_num, Nat.and_pow_two_sub_one_eq_mod]
    exact Nat.mod_eq_of_lt (Nat.mod_lt _ (by norm_num))
  rw [h1, h2, Nat.shiftLeft_eq, Nat.mul_comm,
    ← Nat.mul_add_lt_is_or (by omega : L % 256 < 2 ^ 8)]
  omega

theorem rand_read_ok {r : Rand} {n : Nat} {bs : Bytes} {r1 : Rand}
    (h : r.Read n = .ok (bs, r1)) : bs.length = n := by
  unfold Rand.Read at h
  split at h
  · cases h
  · cases h; simp

theorem deriveAESKeyHKDF_eq (P : Primitives) (ss salt : Bytes) (info : GoString) :
    deriveAESKeyHKDF P ss salt info = .ok ((List.range 32).map (P.hkdf ss salt info)) := by
  simp [deriveAESKeyHKDF]

theorem encrypt_ok {P : Primitives} {r : Rand} {data ss : Bytes} {S : GoString}
    {encData encSaltIv : Bytes}
    (h : EncryptAESGCMWithSession P r data ss S = .ok (encData, encSaltIv)) :
    ss.length = 32 ∧ ∃ salt iv iv2, salt.length = 16 ∧ iv.length = 12 ∧ iv2.length = 12 ∧
      encData = P.Seal ((List.range 32).map (P.hkdf ss salt (sessionInfo S))) iv data (sessionInfo S) ∧
      encSaltIv = iv2 ++ P.Seal ss.reverse iv2 (salt ++ iv) [] := by
  unfold EncryptAESGCMWithSession at h
  by_cases hlen : ss.length = 32
  · refine ⟨hlen, ?_⟩
    simp only [hlen, ne_eq, not_true_eq_false, if_false, reverseSecret_eq ss hlen,
      deriveAESKeyHKDF_eq] at h
    cases h16 : r.Read 16 with
    | error e => simp [h16] at h
    | ok p1 =>
      obtain ⟨salt, r1⟩ := p1
      simp only [h16] at h
      cases h12 : r1.Read 12 with
      | error e => simp [h12] at h
      | ok p2 =>
        obtain ⟨iv, r2⟩ := p2
        simp only [h12] at h
        have hs := rand_read_ok h16
        have hi := rand_read_ok h12
        have hk : newGCM ((List.range 32).map (P.hkdf ss salt (sessionInfo S)))
            = .ok ((List.range 32).map (P.hkdf ss salt (sessionInfo S))) := by
          simp only [newGCM, List.length_map, List.length_range]
          rfl
        have hr : slice ss.reverse 0 32 = .ok ss.reverse := by
          have hl : ss.reverse.length = 32 := by rw [List.length_reverse]; exact hlen
          simp only [slice]
          rw [if_pos ⟨by omega, by omega⟩, List.take_of_length_le (by omega), List.drop_zero]
        have hk2 : newGCM ss.reverse = .ok ss.reverse := by simp [newGCM, hlen]
        simp only [hk, gcmSeal, hi, if_true, EncryptWithDirectKey, hr, hk2] at h
        cases h12b : r2.Read 12 with
        | error e => rw [h12b] at h; cases e <;> simp at h
        | ok p3 =>
          obtain ⟨iv2, r3⟩ := p3
          have hi2 := rand_read_ok h12b
          simp only [h12b, hi2, if_true, Except.ok.injEq, Prod.mk.injEq] at h
          exact ⟨salt, iv, iv2, hs, hi, hi2, h.1.symm, h.2.symm⟩
  · simp [hlen] at h

theorem slice_full32 (key : Bytes) (h : key.length = 32) : slice key 0 32 = .ok key := by
  simp only [slice]
  rw [if_pos ⟨by omega, by omega⟩, List.take_of_length_le (by omega), List.drop_zero]

theorem newGCM_32 (key : Bytes) (h : key.length = 32) : newGCM key = .ok key := by
  simp only [newGCM, h]
  rfl

theorem directDecrypt_eq (P : Primitives) (iv ct key : Bytes) (hk : key.length = 32)
    (hiv : iv.length = 12) :
    DecryptWithDirectKey P (iv ++ ct) key =
      match P.Open key iv ct [] with
      | none => .error .directDecryptFailed
      | some pt => .ok pt := by
  have h1 : ¬ (iv ++ ct).length < 12 := by simp [hiv]
  have h2 : slice (iv ++ ct) 0 12 = .ok iv := by
    simp only [slice]
    rw [if_pos ⟨by omega, by simp [hiv]⟩, List.drop_zero, ← hiv, List.take_left']
    rfl
  have h3 : sliceFrom (iv ++ ct) 12 = .ok ct := by
    simp only [sliceFrom, slice]
    rw [if_pos ⟨by simp [hiv], le_refl _⟩, List.take_length, ← hiv, List.drop_left]
  simp only [DecryptWithDirectKey, slice_full32 key hk, newGCM_32 key hk, h1, if_false, h2, h3,
    gcmOpen, hiv, if_true]
  cases P.Open key iv ct [] <;> rfl

theorem decrypt_buildFrame (P : Primitives) (encData iv2 ct2 ss S : Bytes)
    (hss : ss.length = 32) (hiv2 : iv2.length = 12) (hfit : 12 + ct2.length < 65536) :
    DecryptAESGCMWithSession P (buildFrame encData (iv2 ++ ct2)) ss S =
      match P.Open ss.reverse iv2 ct2 [] with
      | none => .error (.saltIvDecryptFailed .directDecryptFailed)
      | some saltIv =>
        if saltIv.length ≠ 28 then .error .invalidSaltIvLength
        else
          match P.Open ((List.range 32).map (P.hkdf ss (saltIv.take 16) (sessionInfo S)))
              (saltIv.drop 16) encData (sessionInfo S) with
          | none => .error .gcmDecryptFailed
          | some pt => .ok pt := by
  have hL : (iv2 ++ ct2).length < 65536 := by simp [hiv2]; omega
  have hE : (iv2 ++ ct2).length = 12 + ct2.length := by simp [hiv2]
  have hdec := prefix_decode (iv2 ++ ct2).length hL
  generalize hEdef : iv2 ++ ct2 = E at *
  have hflen : (buildFrame encData E).length = 2 + E.length + encData.length := by
    simp [buildFrame]; omega
  have hi0 : index (buildFrame encData E) 0 = .ok (Fin.ofNat (E.length >>> 8)) := by
    simp [index, buildFrame]
  have hi1 : index (buildFrame encData E) 1 = .ok (Fin.ofNat (E.length &&& 0xff)) := by
    simp [index, buildFrame]
  have hs1 : slice (buildFrame encData E) 2 (2 + E.length) = .ok E := by
    simp only [slice]
    rw [if_pos ⟨by omega, by omega⟩, Nat.add_comm 2 E.length]
    simp [buildFrame]
  have hs2 : sliceFrom (buildFrame encData E) (2 + E.length) = .ok encData := by
    simp only [sliceFrom, slice]
    rw [if_pos ⟨by omega, le_refl _⟩, List.take_length, Nat.add_comm 2 E.length]
    simp [buildFrame]
  have hrev : ss.reverse.length = 32 := by rw [List.length_reverse]; exact hss
  unfold DecryptAESGCMWithSession
  simp only [hss, ne_eq, not_true_eq_false, if_false, reverseSecret_eq ss hss, hi0, hi1, hdec,
    hs1, hs2, show ¬ (buildFrame encData E).length < 2 by omega,
    show ¬ (buildFrame encData E).length < 2 + E.length by omega]
  rw [← hEdef, directDecrypt_eq P iv2 ct2 ss.reverse hrev hiv2]
  cases hO : P.Open ss.reverse iv2 ct2 [] with
  | none => rfl
  | some saltIv =>
    simp only []
    by_cases h28 : saltIv.length = 28
    · have ht : slice saltIv 0 16 = .ok (saltIv.take 16) := by
        simp only [slice]
        rw [if_pos ⟨by omega, by omega⟩, List.drop_zero]
      have hd : slice saltIv 16 28 = .ok (saltIv.drop 16) := by
        simp only [slice]
        rw [if_pos ⟨by omega, by omega⟩, List.take_of_length_le (by omega)]
      have hkl : ((List.range 32).map (P.hkdf ss (saltIv.take 16) (sessionInfo S))).length = 32 := by
        simp
      have hivl : (saltIv.drop 16).length = 12 := by simp [h28]
      simp only [h28, ne_eq, not_true_eq_false, if_false, ht, hd, deriveAESKeyHKDF_eq,
        newGCM_32 _ hkl, gcmOpen, hivl, if_true]
      cases P.Open ((List.range 32).map (P.hkdf ss (saltIv.take 16) (sessionInfo S)))
        (saltIv.drop 16) encData (sessionInfo S) <;> rfl
    · simp [h28]

theorem slice_ok (xs : Bytes) (lo hi : Nat) (h1 : lo ≤ hi) (h2 : hi ≤ xs.length) :
    slice xs lo hi = .ok ((xs.take hi).drop lo) := by
  simp only [slice]
  rw [if_pos ⟨h1, h2⟩]

theorem index_ok (xs : Bytes) (i : Nat) (h : i < xs.length) : index xs i = .ok xs[i] := by
  simp only [index, List.getElem?_eq_getElem h]

theorem directDecrypt_no_panic (P : Primitives) (E key : Bytes) (hk : key.length = 32) :
    ∀ w, DecryptWithDirectKey P E key ≠ .error (.panicked w) := by
  intro w
  unfold DecryptWithDirectKey
  rw [slice_full32 key hk]
  simp only [newGCM_32 key hk]
  by_cases h12 : E.length < 12
  · simp [h12]
  · have hlen : ((E.take 12).drop 0).length = 12 := by
      simp; omega
    simp only [h12, if_false, slice_ok E 0 12 (by omega) (by omega), sliceFrom,
      slice_ok E 12 E.length (by omega) (le_refl _), gcmOpen, hlen, if_true]
    cases P.Open key ((E.take 12).drop 0) ((E.take E.length).drop 12) [] <;> simp

/-- `DecryptAESGCMWithSession` never panics: every slice and index it takes is
guarded. -/
theorem decrypt_no_panic (P : Primitives) (F ss : Bytes) (S : GoString) :
    isPanic (DecryptAESGCMWithSession P F ss S) = false := by
  unfold DecryptAESGCMWithSession
  by_cases hss : ss.length = 32
  swap
  · simp [hss, isPanic]
  have hrev : ss.reverse.length = 32 := by rw [List.length_reverse]; exact hss
  simp only [hss, ne_eq, not_true_eq_false, if_false, reverseSecret_eq ss hss]
  by_cases h2 : F.length < 2
  · simp [h2, isPanic]
  obtain ⟨b0, b1, rest, rfl⟩ : ∃ b0 b1 rest, F = b0 :: b1 :: rest := by
    match F, h2 with
    | [], h => simp at h
    | [_], h => simp at h
    | b0 :: b1 :: rest, _ => exact ⟨b0, b1, rest, rfl⟩
  have hi0 : index (b0 :: b1 :: rest) 0 = .ok b0 := by simp [index]
  have hi1 : index (b0 :: b1 :: rest) 1 = .ok b1 := by simp [index]
  simp only [h2, if_false, hi0, hi1]
  generalize b0.val <<< 8 ||| b1.val = L
  generalize b0 :: b1 :: rest = F at *
  by_cases h3 : F.length < 2 + L
  · simp [h3, isPanic]
  simp only [h3, if_false, slice_ok F 2 (2 + L) (by omega) (by omega), sliceFrom,
    slice_ok F (2 + L) F.length (by omega) (le_refl _)]
  have hnp := directDecrypt_no_panic P ((F.take (2 + L)).drop 2) ss.reverse hrev
  cases hd : DecryptWithDirectKey P ((F.take (2 + L)).drop 2) ss.reverse with
  | error e =>
    cases e <;> first | rfl | exact absurd hd (hnp _)
  | ok saltIv =>
    simp only []
    by_cases h28 : saltIv.length = 28
    swap
    · simp [h28, isPanic]
    have hkl : ((List.range 32).map (P.hkdf ss ((saltIv.take 16).drop 0) (sessionInfo S))).length
        = 32 := by simp
    have hivl : ((saltIv.take 28).drop 16).length = 12 := by simp [h28]
    simp only [h28, ne_eq, not_true_eq_false, if_false, slice_ok saltIv 0 16 (by omega) (by omega),
      slice_ok saltIv 16 28 (by omega) (by omega), deriveAESKeyHKDF_eq, newGCM_32 _ hkl, gcmOpen,
      hivl, if_true]
    cases P.Open ((List.range 32).map (P.hkdf ss ((saltIv.take 16).drop 0) (sessionInfo S)))
      ((saltIv.take 28).drop 16) ((F.take F.length).drop (2 + L)) (sessionInfo S) <;> rfl

theorem encryptDirect_no_panic (P : Primitives) (r : Rand) (data key : Bytes)
    (hk : key.length = 32) : ∀ w, EncryptWithDirectKey P r data key ≠ .error (.panicked w) := by
  intro w
  unfold EncryptWithDirectKey
  rw [slice_full32 key hk]
  simp only [newGCM_32 key hk, Rand.Read, gcmSeal]
  by_cases hf : r.failAt r.pos = true
  · simp [hf]
  · simp [hf]

/-- `EncryptAESGCMWithSession` never panics. -/
theorem encrypt_no_panic (P : Primitives) (r : Rand) (data ss : Bytes) (S : GoString) :
    isPanic (EncryptAESGCMWithSession P r data ss S) = false := by
  unfold EncryptAESGCMWithSession
  by_cases hss : ss.length = 32
  swap
  · simp [hss, isPanic]
  have hrev : ss.reverse.length = 32 := by rw [List.length_reverse]; exact hss
  simp only [hss, ne_eq, not_true_eq_false, if_false, reverseSecret_eq ss hss]
  cases h16 : r.Read 16 with
  | error e =>
    unfold Rand.Read at h16
    split at h16 <;> cases h16
    rfl
  | ok p1 =>
    obtain ⟨salt, r1⟩ := p1
    simp only []
    cases h12 : r1.Read 12 with
    | error e =>
      unfold Rand.Read at h12
      split at h12 <;> cases h12
      rfl
    | ok p2 =>
      obtain ⟨iv, r2⟩ := p2
      have hi := rand_read_ok h12
      have hkl : ((List.range 32).map (P.hkdf ss salt (sessionInfo S))).length = 32 := by simp
      simp only [deriveAESKeyHKDF_eq, newGCM_32 _ hkl, gcmSeal, hi, if_true]
      have hnp := encryptDirect_no_panic P r2 (salt ++ iv) ss.reverse hrev
      cases hd : EncryptWithDirectKey P r2 (salt ++ iv) ss.reverse with
      | error e => cases e <;> first | rfl | exact absurd hd (hnp _)
      | ok p3 => rfl

theorem modelPrimitives_correct : modelPrimitives.Correct := by
  intro key nonce pt aad
  show modelOpen key nonce (modelSeal key nonce pt aad) aad = some pt
  unfold modelOpen modelSeal
  rw [if_pos, ← List.append_assoc, List.drop_left]
  rw [List.isPrefixOf_iff_prefix, ← List.append_assoc]
  exact List.prefix_append _ _

theorem modelPrimitives_fits : modelPrimitives.SaltIvFits := by
  intro key nonce pt hkey hpt
  show 12 + (modelSeal key nonce pt []).length < 65536
  simp [modelSeal, modelField, hpt, hkey]

theorem saltIvFits_of_tagOverhead (P : Primitives) (h : P.TagOverhead) : P.SaltIvFits := by
  intro key nonce pt _ hpt
  rw [h, hpt]
  norm_num

theorem sessionInfo_injective {S S' : GoString} (h : sessionInfo S = sessionInfo S') : S = S' :=
  List.append_cancel_left h

/-- Claim C1 (envelope round-trip).  With an AEAD that opens what it sealed, and
whose sealed salt/IV fits the two-byte length prefix (with GCM it is 56 bytes):
whenever `EncryptAESGCMWithSession` succeeds with `(encData, encSaltIv)`,
`DecryptAESGCMWithSession` on the frame
`[len >> 8, len & 0xff] ++ encSaltIv ++ encData`, with the same secret and
session id, succeeds and returns exactly the plaintext. -/
theorem envelope_roundtrip (P : Primitives) (hc : P.Correct) (hf : P.SaltIvFits) (r : Rand)
    (data sharedSecret : Bytes) (sessionID : GoString) (encData encSaltIv : Bytes)
    (h : EncryptAESGCMWithSession P r data sharedSecret sessionID = .ok (encData, encSaltIv)) :
    DecryptAESGCMWithSession P (buildFrame encData encSaltIv) sharedSecret sessionID
      = .ok data := by
  obtain ⟨hss, salt, iv, iv2, hs, hi, hi2, rfl, rfl⟩ := encrypt_ok h
  have hrev : sharedSecret.reverse.length = 32 := by rw [List.length_reverse]; exact hss
  have h28 : (salt ++ iv).length = 28 := by simp [hs, hi]
  rw [decrypt_buildFrame P _ iv2 _ sharedSecret sessionID hss hi2 (hf _ _ _ hrev h28), hc]
  simp only [h28, ne_eq, not_true_eq_false, if_false]
  rw [← hs, List.take_left, List.drop_left, hc]

/-- Instance of C1: a three-byte plaintext under `modelPrimitives`; the
encryption succeeds and the frame decrypts to the plaintext. -/
theorem envelope_roundtrip_witness :
    ∃ encData encSaltIv,
      EncryptAESGCMWithSession modelPrimitives countingRand [1, 2, 3] (List.replicate 32 7)
        (ascii "s") = .ok (encData, encSaltIv) ∧
      DecryptAESGCMWithSession modelPrimitives (buildFrame encData encSaltIv)
        (List.replicate 32 7) (ascii "s") = .ok [1, 2, 3] :=
  ⟨_, _, rfl, envelope_roundtrip modelPrimitives modelPrimitives_correct modelPrimitives_fits
    countingRand [1, 2, 3] (List.replicate 32 7) (ascii "s") _ _ rfl⟩

/-! ## Session binding and secret binding -/

theorem modelTag_length (key nonce aad : Bytes) : (modelTag key nonce aad).length = 16 := by
  simp [modelTag]

theorem tagPrimitives_correct : tagPrimitives.Correct := by
  intro key nonce pt aad
  show tagOpen key nonce (tagSeal key nonce pt aad) aad = some pt
  unfold tagOpen tagSeal
  have hlen : (pt ++ modelTag key nonce aad).length - 16 = pt.length := by
    simp [modelTag_length]
  rw [hlen, List.drop_left, List.take_left, if_pos]
  exact ⟨by simp [modelTag_length], rfl⟩

theorem tagPrimitives_tagOverhead : tagPrimitives.TagOverhead := by
  intro key nonce pt aad
  show (tagSeal key nonce pt aad).length = pt.length + 16
  simp [tagSeal, modelTag_length]

/-- The three draws of `EncryptAESGCMWithSession` from the random source. -/
theorem encrypt_eq (P : Primitives) (r : Rand) (data ss : Bytes) (S : GoString)
    (hss : ss.length = 32) (hr : ∀ p, r.failAt p = false) :
    EncryptAESGCMWithSession P r data ss S =
      .ok (P.Seal ((List.range 32).map
              (P.hkdf ss ((List.range 16).map fun i => r.stream (r.pos + i)) (sessionInfo S)))
            ((List.range 12).map fun i => r.stream (r.pos + 16 + i)) data (sessionInfo S),
          ((List.range 12).map fun i => r.stream (r.pos + 16 + 12 + i)) ++
            P.Seal ss.reverse ((List.range 12).map fun i => r.stream (r.pos + 16 + 12 + i))
              (((List.range 16).map fun i => r.stream (r.pos + i)) ++
                ((List.range 12).map fun i => r.stream (r.pos + 16 + i))) []) := by
  have hrev : ss.reverse.length = 32 := by rw [List.length_reverse]; exact hss
  have hkl : ∀ salt, ((List.range 32).map (P.hkdf ss salt (sessionInfo S))).length = 32 := by
    intro salt; simp
  unfold EncryptAESGCMWithSession
  simp only [hss, ne_eq, not_true_eq_false, if_false, reverseSecret_eq ss hss, Rand.Read, hr,
    Bool.false_eq_true, deriveAESKeyHKDF_eq, newGCM_32 _ (hkl _), gcmSeal, List.length_map,
    List.length_range, if_true, EncryptWithDirectKey, slice_full32 _ hrev, newGCM_32 _ hrev]

theorem hexDigitChar_injective : Function.Injective hexDigitChar := by
  intro a b h
  revert a b
  decide

theorem sessionIdOf_injective : Function.Injective sessionIdOf := by
  intro d d' h
  have := List.ofFn_injective h
  funext i
  exact hexDigitChar_injective (congrFun this i)

theorem sessionIdOf_isSessionID (d : Fin 64 → Fin 16) : IsSessionID (sessionIdOf d) := by
  refine ⟨by simp [sessionIdOf], ?_⟩
  intro c hc
  simp only [sessionIdOf, List.mem_ofFn, Set.mem_range] at hc
  obtain ⟨i, rfl⟩ := hc
  generalize d i = x
  revert x
  decide

/-- With a 16-byte tag a plaintext of `n` bytes is sealed to one of `256^(n+16)`
values: among more session ids than that, two give the same sealed payload. -/
theorem sealed_collision (P : Primitives) (ht : P.TagOverhead) (ss salt iv data : Bytes)
    {ι : Type} [Fintype ι] (g : ι → GoString)
    (hcard : 256 ^ (data.length + 16) < Fintype.card ι) :
    ∃ a b : ι, a ≠ b ∧
      P.Seal ((List.range 32).map (P.hkdf ss salt (sessionInfo (g a)))) iv data
          (sessionInfo (g a)) =
        P.Seal ((List.range 32).map (P.hkdf ss salt (sessionInfo (g b)))) iv data
          (sessionInfo (g b)) := by
  have hcard2 : Fintype.card (Mathlib.Vector Byte (data.length + 16)) < Fintype.card ι := by
    rw [card_vector, Fintype.card_fin]
    exact hcard
  let f : ι → Mathlib.Vector Byte (data.length + 16) := fun a =>
    ⟨P.Seal ((List.range 32).map (P.hkdf ss salt (sessionInfo (g a)))) iv data
      (sessionInfo (g a)), ht _ _ _ _⟩
  obtain ⟨a, b, hne, heq⟩ := Fintype.exists_ne_map_eq_of_card_lt f hcard2
  exact ⟨a, b, hne, congrArg Subtype.val heq⟩

/-- Decryption of a well-formed frame with the right secret: the salt/IV layer
opens, and the result is that of the one open of the payload, under the key and
the associated data of the session id given to the decryption. -/
theorem decrypt_sealed (P : Primitives) (hc : P.Correct) (hf : P.SaltIvFits)
    (encData salt iv iv2 ss : Bytes) (S : GoString) (hss : ss.length = 32)
    (hs : salt.length = 16) (hi : iv.length = 12) (hi2 : iv2.length = 12) :
    DecryptAESGCMWithSession P
        (buildFrame encData (iv2 ++ P.Seal ss.reverse iv2 (salt ++ iv) [])) ss S =
      match P.Open ((List.range 32).map (P.hkdf ss salt (sessionInfo S))) iv encData
          (sessionInfo S) with
      | none => .error .gcmDecryptFailed
      | some pt => .ok pt := by
  have hrev : ss.reverse.length = 32 := by rw [List.length_reverse]; exact hss
  have h28 : (salt ++ iv).length = 28 := by simp [hs, hi]
  rw [decrypt_buildFrame P _ iv2 _ ss S hss hi2 (hf _ _ _ hrev h28), hc]
  simp only [h28, ne_eq, not_true_eq_false, if_false]
  rw [← hs, List.take_left, List.drop_left]
  try rfl

/-- For every correct AEAD with a 16-byte tag, and among more session ids than
there are sealed payloads, there are two session ids such that the plaintext
encrypted for the one decrypts for the other. -/
theorem session_collision (P : Primitives) (hc : P.Correct) (ht : P.TagOverhead) (r : Rand)
    (data ss : Bytes) (hss : ss.length = 32) (hr : ∀ p, r.failAt p = false)
    {ι : Type} [Fintype ι] (g : ι → GoString) (hg : Function.Injective g)
    (hcard : 256 ^ (data.length + 16) < Fintype.card ι) :
    ∃ a b encData encSaltIv, g a ≠ g b ∧
      EncryptAESGCMWithSession P r data ss (g a) = .ok (encData, encSaltIv) ∧
      DecryptAESGCMWithSession P (buildFrame encData encSaltIv) ss (g b) = .ok data := by
  obtain ⟨a, b, hne, hcol⟩ := sealed_collision P ht ss
    ((List.range 16).map fun i => r.stream (r.pos + i))
    ((List.range 12).map fun i => r.stream (r.pos + 16 + i)) data g hcard
  refine ⟨a, b, _, _, fun h => hne (hg h), encrypt_eq P r data ss (g a) hss hr, ?_⟩
  rw [decrypt_sealed P hc (saltIvFits_of_tagOverhead P ht) _ _ _ _ ss (g b) hss
    (by simp) (by simp) (by simp), hcol, hc]

/-- Claim C5, amended (session binding).  For session ids `S ≠ S'` the info
strings `kyberlink:v1|session=S` and `kyberlink:v1|session=S'` differ.  The
payload of the frame encrypted for `S` is sealed under the key derived with the
info string of `S`, with that string as associated data.  Decrypting the frame
with the same secret and `S'` recovers salt and IV, and then returns an error
exactly when the AEAD, under the key derived with the info string of `S'` and
with that string as associated data, rejects the payload; otherwise it returns
what that open returns. -/
theorem session_binding (P : Primitives) (hc : P.Correct) (hf : P.SaltIvFits) (r : Rand)
    (data ss : Bytes) (S S' : GoString) (encData encSaltIv : Bytes) (hne : S ≠ S')
    (henc : EncryptAESGCMWithSession P r data ss S = .ok (encData, encSaltIv)) :
    sessionInfo S ≠ sessionInfo S' ∧
    ∃ salt iv, salt.length = 16 ∧ iv.length = 12 ∧
      encData = P.Seal ((List.range 32).map (P.hkdf ss salt (sessionInfo S))) iv data
        (sessionInfo S) ∧
      DecryptAESGCMWithSession P (buildFrame encData encSaltIv) ss S' =
        match P.Open ((List.range 32).map (P.hkdf ss salt (sessionInfo S'))) iv encData
            (sessionInfo S') with
        | none => .error .gcmDecryptFailed
        | some pt => .ok pt := by
  obtain ⟨hss, salt, iv, iv2, hs, hi, hi2, h1, h2⟩ := encrypt_ok henc
  refine ⟨fun h => hne (sessionInfo_injective h), salt, iv, hs, hi, h1, ?_⟩
  rw [h2]
  exact decrypt_sealed P hc hf encData salt iv iv2 ss S' hss hs hi hi2

set_option maxRecDepth 100000 in
/-- Instance of C5 with the tagged AEAD: a three-byte plaintext encrypted for the
session id `s`; decryption for `t` is an error of the payload layer. -/
theorem session_binding_witness :
    ∃ encData encSaltIv,
      EncryptAESGCMWithSession tagPrimitives countingRand [1, 2, 3] (List.replicate 32 7)
        (ascii "s") = .ok (encData, encSaltIv) ∧
      sessionInfo (ascii "s") ≠ sessionInfo (ascii "t") ∧
      DecryptAESGCMWithSession tagPrimitives (buildFrame encData encSaltIv)
        (List.replicate 32 7) (ascii "t") = .error .gcmDecryptFailed :=
  ⟨_, _, rfl,
    (session_binding tagPrimitives tagPrimitives_correct
      (saltIvFits_of_tagOverhead tagPrimitives tagPrimitives_tagOverhead) countingRand [1, 2, 3]
      (List.replicate 32 7) (ascii "s") (ascii "t") _ _ (by decide) rfl).1,
    rfl⟩

/-- Counterexample to C5 as stated.  AES-GCM opens what it sealed and adds a
16-byte tag, the two laws assumed here (the tagged AEAD shows that they can be
met).  For every such AEAD, every key derivation, every 32-byte secret and every
plaintext there are two different session ids such that the frame encrypted for
the one decrypts, with the same secret, for the other, to the plaintext: there
are more session ids than sealed payloads.  For a plaintext shorter than 16
bytes the two can be taken among the ids that `generateRandomID` makes, 64
hexadecimal characters. -/
theorem session_binding_counterexample :
    (tagPrimitives.Correct ∧ tagPrimitives.TagOverhead) ∧
    ∀ P : Primitives, P.Correct → P.TagOverhead →
      ∀ (r : Rand) (data ss : Bytes), ss.length = 32 → (∀ p, r.failAt p = false) →
        (∃ S S' encData encSaltIv, S ≠ S' ∧
          EncryptAESGCMWithSession P r data ss S = .ok (encData, encSaltIv) ∧
          DecryptAESGCMWithSession P (buildFrame encData encSaltIv) ss S' = .ok data) ∧
        (data.length < 16 → ∃ S S' encData encSaltIv, S ≠ S' ∧ IsSessionID S ∧ IsSessionID S' ∧
          EncryptAESGCMWithSession P r data ss S = .ok (encData, encSaltIv) ∧
          DecryptAESGCMWithSession P (buildFrame encData encSaltIv) ss S' = .ok data) := by
  refine ⟨⟨tagPrimitives_correct, tagPrimitives_tagOverhead⟩, ?_⟩
  intro P hc ht r data ss hss hr
  constructor
  · have hcard : 256 ^ (data.length + 16) <
        Fintype.card (Mathlib.Vector Byte (data.length + 17)) := by
      rw [card_vector, Fintype.card_fin]
      exact Nat.pow_lt_pow_right (by norm_num) (by omega)
    obtain ⟨a, b, encData, encSaltIv, hne, h1, h2⟩ := session_collision P hc ht r data ss hss hr
      (fun v : Mathlib.Vector Byte (data.length + 17) => v.val) Subtype.val_injective hcard
    exact ⟨_, _, encData, encSaltIv, hne, h1, h2⟩
  · intro hshort
    have hcard : 256 ^ (data.length + 16) < Fintype.card (Fin 64 → Fin 16) := by
      rw [Fintype.card_fun, Fintype.card_fin, Fintype.card_fin]
      calc 256 ^ (data.length + 16) < 256 ^ 32 := Nat.pow_lt_pow_right (by norm_num) (by omega)
        _ = 16 ^ 64 := by norm_num
    obtain ⟨a, b, encData, encSaltIv, hne, h1, h2⟩ := session_collision P hc ht r data ss hss hr
      sessionIdOf sessionIdOf_injective hcard
    exact ⟨_, _, encData, encSaltIv, hne, sessionIdOf_isSessionID a, sessionIdOf_isSessionID b,
      h1, h2⟩

/-- With a 16-byte tag neither layer of the envelope can, on its own, reject
every wrong secret: under some wrong secret the AEAD opens the sealed salt and
IV of some encryption to 28 bytes, and under some wrong secret it opens the
payload sealed with a given salt and IV. -/
theorem layer_collision (P : Primitives) (hc : P.Correct) (ht : P.TagOverhead) :
    (∀ iv2 : Bytes, ∃ ss ss' salt iv saltIv : Bytes, ss.length = 32 ∧ ss'.length = 32 ∧ ss ≠ ss' ∧
      salt.length = 16 ∧ iv.length = 12 ∧ saltIv.length = 28 ∧
      P.Open ss'.reverse iv2 (P.Seal ss.reverse iv2 (salt ++ iv) []) [] = some saltIv) ∧
    (∀ (salt iv data : Bytes) (S : GoString), data.length < 16 →
      ∃ ss ss' : Bytes, ss.length = 32 ∧ ss'.length = 32 ∧ ss ≠ ss' ∧
        P.Open ((List.range 32).map (P.hkdf ss' salt (sessionInfo S))) iv
          (P.Seal ((List.range 32).map (P.hkdf ss salt (sessionInfo S))) iv data (sessionInfo S))
          (sessionInfo S) = some data) := by
  constructor
  · intro iv2
    have hcard : Fintype.card (Mathlib.Vector Byte 44) <
        Fintype.card (Mathlib.Vector Byte 32 × Mathlib.Vector Byte 28) := by
      rw [Fintype.card_prod, card_vector, card_vector, card_vector, Fintype.card_fin]
      norm_num
    let f : Mathlib.Vector Byte 32 × Mathlib.Vector Byte 28 → Mathlib.Vector Byte 44 := fun p =>
      ⟨P.Seal p.1.val.reverse iv2 p.2.val [], by rw [ht, p.2.property]⟩
    obtain ⟨⟨k, x⟩, ⟨k', x'⟩, hne, heq⟩ := Fintype.exists_ne_map_eq_of_card_lt f hcard
    have hseal : P.Seal k.val.reverse iv2 x.val [] = P.Seal k'.val.reverse iv2 x'.val [] :=
      congrArg Subtype.val heq
    have hk : k.val ≠ k'.val := by
      intro hkk
      apply hne
      have hx : x.val = x'.val := by
        have h1 := hc k.val.reverse iv2 x.val []
        rw [hseal, ← hkk, hc] at h1
        exact (Option.some.inj h1).symm
      exact Prod.ext (Subtype.ext hkk) (Subtype.ext hx)
    refine ⟨k.val, k'.val, x.val.take 16, x.val.drop 16, x'.val, k.property, k'.property, hk,
      ?_, ?_, x'.property, ?_⟩
    · rw [List.length_take, x.property]; rfl
    · rw [List.length_drop, x.property]
    · rw [List.take_append_drop, hseal, hc]
  · intro salt iv data S hshort
    have hcard : Fintype.card (Mathlib.Vector Byte (data.length + 16)) <
        Fintype.card (Mathlib.Vector Byte 32) := by
      rw [card_vector, card_vector, Fintype.card_fin]
      exact Nat.pow_lt_pow_right (by norm_num) (by omega)
    let f : Mathlib.Vector Byte 32 → Mathlib.Vector Byte (data.length + 16) := fun k =>
      ⟨P.Seal ((List.range 32).map (P.hkdf k.val salt (sessionInfo S))) iv data (sessionInfo S),
        ht _ _ _ _⟩
    obtain ⟨k, k', hne, heq⟩ := Fintype.exists_ne_map_eq_of_card_lt f hcard
    refine ⟨k.val, k'.val, k.property, k'.property, fun h => hne (Subtype.ext h), ?_⟩
    have hseal : P.Seal ((List.range 32).map (P.hkdf k.val salt (sessionInfo S))) iv data
        (sessionInfo S) =
          P.Seal ((List.range 32).map (P.hkdf k'.val salt (sessionInfo S))) iv data
            (sessionInfo S) := congrArg Subtype.val heq
    rw [hseal, hc]

set_option maxRecDepth 100000 in
theorem hexCharToByte_eq_255_iff : ∀ c : Byte, hexCharToByte c = 255 ↔ hexDigitValue c = none := by
  decide

set_option maxRecDepth 100000 in
theorem hexCharToByte_val_all : ∀ c : Byte, (hexDigitValue c).all
    (fun v => decide ((hexCharToByte c).val = v ∧ v < 16)) = true := by
  decide

theorem hexCharToByte_val (c : Byte) (v : Nat) (h : hexDigitValue c = some v) :
    (hexCharToByte c).val = v ∧ v < 16 := by
  have := hexCharToByte_val_all c
  rw [h] at this
  simpa using this

theorem packNibbles_val (high low : Byte) (hh : high.val < 16) (hl : low.val < 16) :
    (packNibbles high low).val = 16 * high.val + low.val := by
  show (((high.val <<< 4) % 256) ||| low.val) % 256 = 16 * high.val + low.val
  have h1 : (high.val <<< 4) % 256 = 2 ^ 4 * high.val := by
    rw [Nat.shiftLeft_eq, Nat.mul_comm]
    exact Nat.mod_eq_of_lt (by omega)
  rw [h1, ← Nat.mul_add_lt_is_or (by omega : low.val < 2 ^ 4)]
  omega

theorem decodeHexLoop_ok (s : GoString) (i : Nat) (heven : s.length % 2 = 0)
    (hall : ∀ c ∈ s, hexDigitValue c ≠ none) :
    ∃ bs, decodeHexLoop s i = .ok bs ∧ bs.length = s.length / 2 ∧
      ∀ k, k < bs.length → ∃ h l, s[2 * k]?.bind hexDigitValue = some h ∧
        s[2 * k + 1]?.bind hexDigitValue = some l ∧ bs[k]?.map Fin.val = some (16 * h + l) := by
  induction s, i using decodeHexLoop.induct with
  | case1 i => exact ⟨[], by simp [decodeHexLoop]⟩
  | case2 c i => simp at heven
  | case3 c0 c1 rest i high low hbad =>
    exfalso
    rcases hbad with hb | hb
    · exact hall c0 (by simp) ((hexCharToByte_eq_255_iff c0).1 hb)
    · exact hall c1 (by simp) ((hexCharToByte_eq_255_iff c1).1 hb)
  | case4 c0 c1 rest i high low hgood e he ih =>
    exfalso
    obtain ⟨bs, hbs, _⟩ := ih (by simp at heven; omega) (fun c hc => hall c (by simp [hc]))
    rw [he] at hbs
    cases hbs
  | case5 c0 c1 rest i high low hgood result hres ih =>
    obtain ⟨bs, hbs, hlen, hval⟩ :=
      ih (by simp at heven; omega) (fun c hc => hall c (by simp [hc]))
    rw [hres] at hbs
    cases hbs
    refine ⟨packNibbles high low :: result, ?_, ?_, ?_⟩
    · simp only [decodeHexLoop]
      rw [if_neg hgood, hres]
    · simp [hlen]; omega
    · intro k hk
      cases k with
      | zero =>
        obtain ⟨v0, hv0⟩ := Option.ne_none_iff_exists'.1 (hall c0 (by simp))
        obtain ⟨v1, hv1⟩ := Option.ne_none_iff_exists'.1 (hall c1 (by simp))
        obtain ⟨e0, l0⟩ := hexCharToByte_val c0 v0 hv0
        obtain ⟨e1, l1⟩ := hexCharToByte_val c1 v1 hv1
        refine ⟨v0, v1, by simpa using hv0, by simpa using hv1, ?_⟩
        have := packNibbles_val high low (by show (hexCharToByte c0).val < 16; omega)
          (by show (hexCharToByte c1).val < 16; omega)
        simp only [List.getElem?_cons_zero, Option.map_some', this]
        show some (16 * (hexCharToByte c0).val + (hexCharToByte c1).val) = _
        rw [e0, e1]
      | succ k =>
        obtain ⟨h, l, h1, h2, h3⟩ := hval k (by simpa using hk)
        refine ⟨h, l, ?_, ?_, ?_⟩
        · rw [show 2 * (k + 1) = (2 * k) + 1 + 1 by ring]
          simpa using h1
        · rw [show 2 * (k + 1) + 1 = (2 * k + 1) + 1 + 1 by ring]
          simpa using h2
        · simpa using h3

theorem decodeHexLoop_error (s : GoString) (i : Nat) (heven : s.length % 2 = 0)
    (hbad : ∃ c ∈ s, hexDigitValue c = none) :
    ∃ p, decodeHexLoop s i = .error (.invalidChar p) := by
  induction s, i using decodeHexLoop.induct with
  | case1 i => simp at hbad
  | case2 c i => simp at heven
  | case3 c0 c1 rest i high low hb =>
    exact ⟨i, by simp only [decodeHexLoop]; rw [if_pos hb]⟩
  | case4 c0 c1 rest i high low hgood e he ih =>
    obtain ⟨c, hc, hv⟩ := hbad
    have hrest : ∃ c ∈ rest, hexDigitValue c = none := by
      simp only [List.mem_cons] at hc
      rcases hc with rfl | rfl | hc
      · exact absurd (Or.inl ((hexCharToByte_eq_255_iff _).2 hv)) hgood
      · exact absurd (Or.inr ((hexCharToByte_eq_255_iff _).2 hv)) hgood
      · exact ⟨c, hc, hv⟩
    obtain ⟨p, hp⟩ := ih (by simp at heven; omega) hrest
    exact ⟨p, by simp only [decodeHexLoop]; rw [if_neg hgood, hp]⟩
  | case5 c0 c1 rest i high low hgood result hres ih =>
    obtain ⟨c, hc, hv⟩ := hbad
    have hrest : ∃ c ∈ rest, hexDigitValue c = none := by
      simp only [List.mem_cons] at hc
      rcases hc with rfl | rfl | hc
      · exact absurd (Or.inl ((hexCharToByte_eq_255_iff _).2 hv)) hgood
      · exact absurd (Or.inr ((hexCharToByte_eq_255_iff _).2 hv)) hgood
      · exact ⟨c, hc, hv⟩
    obtain ⟨p, hp⟩ := ih (by simp at heven; omega) hrest
    rw [hres] at hp
    cases hp

theorem DecodeHex_cases (s : GoString) :
    ((∃ e, DecodeHex s = .error e) ↔ (s.length % 2 = 1 ∨ ∃ c ∈ s, hexDigitValue c = none)) ∧
    DecodeHex s ≠ .error .panicked ∧
    (∀ bs, DecodeHex s = .ok bs →
      bs.length = s.length / 2 ∧
      ∀ i, i < bs.length → ∃ h l, s[2 * i]?.bind hexDigitValue = some h ∧
        s[2 * i + 1]?.bind hexDigitValue = some l ∧
        bs[i]?.map Fin.val = some (16 * h + l)) := by
  by_cases hodd : s.length % 2 = 1
  · have he : DecodeHex s = .error (.invalidLength s.length) := by
      simp [DecodeHex, hodd]
    refine ⟨⟨fun _ => Or.inl hodd, fun _ => ⟨_, he⟩⟩, by rw [he]; simp, ?_⟩
    intro bs hbs
    rw [he] at hbs
    cases hbs
  · have heven : s.length % 2 = 0 := by omega
    have hd : DecodeHex s = decodeHexLoop s 0 := by simp [DecodeHex, heven]
    by_cases hbad : ∃ c ∈ s, hexDigitValue c = none
    · obtain ⟨p, hp⟩ := decodeHexLoop_error s 0 heven hbad
      rw [hd, hp]
      refine ⟨⟨fun _ => Or.inr hbad, fun _ => ⟨_, rfl⟩⟩, by simp, ?_⟩
      intro bs hbs
      cases hbs
    · have hall : ∀ c ∈ s, hexDigitValue c ≠ none := fun c hc hv => hbad ⟨c, hc, hv⟩
      obtain ⟨bs, hbs, hlen, hval⟩ := decodeHexLoop_ok s 0 heven hall
      rw [hd, hbs]
      refine ⟨⟨?_, ?_⟩, by simp, ?_⟩
      · rintro ⟨e, he⟩
        cases he
      · rintro (h | h)
        · exact absurd h hodd
        · exact absurd h hbad
      · intro bs' hbs'
        cases hbs'
        exact ⟨hlen, hval⟩

/-- Claim C10 (hex decoder).  `DecodeHex(s)` returns an error (never a panic)
when `len(s)` is odd or `s` has a character outside `0-9`, `a-f`, `A-F`;
otherwise it succeeds with exactly `len(s)/2` bytes, byte `i` being
`16 * value(s[2i]) + value(s[2i+1])`. -/
theorem DecodeHex_spec (s : GoString) :
    (s.length % 2 = 1 → DecodeHex s = .error (.invalidLength s.length)) ∧
    ((s.length % 2 = 1 ∨ ∃ c ∈ s, hexDigitValue c = none) →
      ∃ e, DecodeHex s = .error e ∧ e ≠ .panicked) ∧
    (¬ (s.length % 2 = 1 ∨ ∃ c ∈ s, hexDigitValue c = none) →
      ∃ bs, DecodeHex s = .ok bs ∧ bs.length = s.length / 2 ∧
        ∀ i, i < bs.length → ∃ h l, s[2 * i]?.bind hexDigitValue = some h ∧
          s[2 * i + 1]?.bind hexDigitValue = some l ∧
          bs[i]?.map Fin.val = some (16 * h + l)) := by
  obtain ⟨hiff, hnp, hok⟩ := DecodeHex_cases s
  refine ⟨?_, ?_, ?_⟩
  · intro hodd
    simp [DecodeHex, hodd]
  · intro hbad
    obtain ⟨e, he⟩ := hiff.2 hbad
    refine ⟨e, he, ?_⟩
    rintro rfl
    exact hnp he
  · intro hgood
    cases hd : DecodeHex s with
    | error e => exact absurd (hiff.1 ⟨e, hd⟩) hgood
    | ok bs => exact ⟨bs, rfl, hok bs hd⟩

/-! ## Session store and the deferred delete -/

theorem GetSessionPrivateKey_store (s : SessionStore) (now : Time) (id : GoString) :
    (s.GetSessionPrivateKey now id).2 = s := by
  unfold SessionStore.GetSessionPrivateKey
  split
  · rfl
  · split <;> rfl

theorem DeleteSession_lookup_self (s : SessionStore) (id : GoString) :
    (s.DeleteSession id).sessions.lookup id = none := by
  unfold SessionStore.DeleteSession
  split
  · exact AList.lookup_erase id s.sessions
  · rename_i h; exact h

theorem DeleteSession_lookup_ne (s : SessionStore) (id id' : GoString) (h : id' ≠ id) :
    (s.DeleteSession id).sessions.lookup id' = s.sessions.lookup id' := by
  unfold SessionStore.DeleteSession
  split
  · exact AList.lookup_erase_ne h
  · rfl

theorem DeleteSession_ttl (s : SessionStore) (id : GoString) :
    (s.DeleteSession id).ttl = s.ttl := by
  unfold SessionStore.DeleteSession
  split <;> rfl

/-- Claim C7 (session lookup).  `GetSessionPrivateKey(id)` at clock `now` returns
"session not found" when the store has no record for `id`, "session expired"
when the record has `now > expires_at`, and the record's private key when
`now ≤ expires_at` (boundary included); in all three cases the store is left
as it was. -/
theorem GetSessionPrivateKey_spec (s : SessionStore) (now : Time) (id : GoString) :
    (s.sessions.lookup id = none →
      s.GetSessionPrivateKey now id = (.error .notFound, s)) ∧
    (∀ key, s.sessions.lookup id = some key → now > key.ExpiresAt →
      s.GetSessionPrivateKey now id = (.error .expired, s)) ∧
    (∀ key, s.sessions.lookup id = some key → now ≤ key.ExpiresAt →
      s.GetSessionPrivateKey now id = (.ok key.PrivateKey, s)) := by
  refine ⟨?_, ?_, ?_⟩
  · intro h
    simp [SessionStore.GetSessionPrivateKey, h]
  · intro key h hexp
    simp [SessionStore.GetSessionPrivateKey, h, hexp]
  · intro key h hle
    simp [SessionStore.GetSessionPrivateKey, h, not_lt.2 hle]

theorem reject_state (st : GatewayState) (eff : List Effect) (code : Nat) (msg : String) :
    (reject st eff code msg).state = st := rfl

theorem secureResponse_state (env : Env) (r : Rand) (st : GatewayState) (eff : List Effect)
    (req : KyberLinkRequest) (respBody : Bytes) :
    (secureResponse env r st eff req respBody).state = st := by
  unfold secureResponse
  repeat' split
  all_goals rfl

theorem forward_state (env : Env) (r : Rand) (st : GatewayState) (req : KyberLinkRequest)
    (payload : GatewayRequestPayload) : (forward env r st req payload).state = st := by
  unfold forward
  simp only []
  repeat' split
  all_goals first | rfl | exact secureResponse_state _ _ _ _ _ _

theorem afterLookup_sessions (env : Env) (r : Rand) (now : Time) (st : GatewayState)
    (req : KyberLinkRequest) (privKey : PrivateKey) :
    (afterLookup env r now st req privKey).state.sessions = st.sessions := by
  unfold afterLookup
  repeat' split
  all_goals first | rfl | (rw [forward_state])

/-- Claim C2 (one-shot session).  In every run of `HandleGateway` in which
`GetSessionPrivateKey(sessionID)` succeeds, whatever the later steps do, the
session store afterwards has no record for that session id, a later
`GetSessionPrivateKey(sessionID)` returns "session not found", and the records
of the other session ids are unchanged. -/
theorem one_shot_session (env : Env) (r : Rand) (nowLookup nowReplay : Time) (st : GatewayState)
    (body : Bytes) (req : KyberLinkRequest) (privKey : PrivateKey)
    (hbind : env.ShouldBindJSON body = some req)
    (hget : (st.sessions.GetSessionPrivateKey nowLookup req.SessionID).1 = .ok privKey) :
    (HandleGateway env r nowLookup nowReplay st body).state.sessions.sessions.lookup
        req.SessionID = none ∧
    (∀ now, ((HandleGateway env r nowLookup nowReplay st body).state.sessions.GetSessionPrivateKey
        now req.SessionID).1 = .error .notFound) ∧
    (∀ id, id ≠ req.SessionID →
      (HandleGateway env r nowLookup nowReplay st body).state.sessions.sessions.lookup id
        = st.sessions.sessions.lookup id) := by
  have hrun : (HandleGateway env r nowLookup nowReplay st body).state.sessions
      = st.sessions.DeleteSession req.SessionID := by
    unfold HandleGateway
    rw [hbind]
    simp only []
    have h2 := GetSessionPrivateKey_store st.sessions nowLookup req.SessionID
    revert hget h2
    generalize st.sessions.GetSessionPrivateKey nowLookup req.SessionID = res
    obtain ⟨res1, res2⟩ := res
    intro hget h2
    simp only at hget h2
    subst hget h2
    simp only [afterLookup_sessions]
  rw [hrun]
  refine ⟨DeleteSession_lookup_self _ _, ?_, fun id hid => DeleteSession_lookup_ne _ _ _ hid⟩
  intro now
  simp [SessionStore.GetSessionPrivateKey, DeleteSession_lookup_self]

theorem handle_lookup_ok (env : Env) (r : Rand) (t1 t2 : Time) (st : GatewayState) (body : Bytes)
    (req : KyberLinkRequest) (privKey : PrivateKey)
    (hbind : env.ShouldBindJSON body = some req)
    (hget : (st.sessions.GetSessionPrivateKey t1 req.SessionID).1 = .ok privKey) :
    (HandleGateway env r t1 t2 st body).response = (afterLookup env r t2 st req privKey).response ∧
    (HandleGateway env r t1 t2 st body).effects = (afterLookup env r t2 st req privKey).effects := by
  unfold HandleGateway
  rw [hbind]
  simp only []
  have h2 := GetSessionPrivateKey_store st.sessions t1 req.SessionID
  revert hget h2
  generalize st.sessions.GetSessionPrivateKey t1 req.SessionID = res
  obtain ⟨res1, res2⟩ := res
  intro hget h2
  simp only at hget h2
  subst hget h2
  exact ⟨rfl, rfl⟩

/-! ## Replay store -/

theorem IsReplay_verdict (s : ReplayProtectionStore) (now : Time) (nonce : GoString)
    (timestamp : Int) :
    (s.IsReplay now nonce timestamp).1 = true ↔
      (s.seenNonces.lookup nonce).isSome = true ∨ |now - timestamp * Second| > s.ttl := by
  have habs : |now - timestamp * Second| > s.ttl ↔
      (now - timestamp * Second > s.ttl ∨ timestamp * Second - now > s.ttl) := by
    rw [gt_iff_lt, lt_abs]
    constructor
    · rintro (h | h)
      · exact Or.inl h
      · exact Or.inr (by linarith)
    · rintro (h | h)
      · exact Or.inl h
      · exact Or.inr (by linarith)
  rw [habs]
  unfold ReplayProtectionStore.IsReplay
  simp only []
  by_cases h1 : now - timestamp * Second > s.ttl
  · simp [h1]
  · by_cases h2 : timestamp * Second - now > s.ttl
    · simp [h1, h2]
    · cases h3 : s.seenNonces.lookup nonce with
      | none => simp [h1, h2, h3]
      | some t => simp [h1, h2, h3]

theorem IsReplay_store (s : ReplayProtectionStore) (now : Time) (nonce : GoString)
    (timestamp : Int) :
    (s.IsReplay now nonce timestamp).2 =
      if (s.IsReplay now nonce timestamp).1 then s
      else { s with seenNonces := s.seenNonces.insert nonce now } := by
  unfold ReplayProtectionStore.IsReplay
  simp only []
  by_cases h1 : now - timestamp * Second > s.ttl
  · simp [h1]
  · by_cases h2 : timestamp * Second - now > s.ttl
    · simp [h1, h2]
    · cases h3 : s.seenNonces.lookup nonce with
      | none => simp [h1, h2, h3]
      | some t => simp [h1, h2, h3]

/-- The loop of `cleanup` over a list of entries, from the map `m`. -/
theorem cleanup_fold_lookup (ttl : Duration) (now : Time) (n : GoString) :
    ∀ (l : List (Sigma fun _ : GoString => Time)) (m : GoMap Time),
      (l.foldl (fun m e => if now - e.2 > ttl then m.erase e.1 else m) m).lookup n =
        if ∃ e ∈ l, e.1 = n ∧ now - e.2 > ttl then none else m.lookup n := by
  intro l
  induction l with
  | nil => intro m; simp
  | cons e l ih =>
    intro m
    rw [List.foldl_cons, ih]
    by_cases hl : ∃ e' ∈ l, e'.1 = n ∧ now - e'.2 > ttl
    · have : ∃ e' ∈ e :: l, e'.1 = n ∧ now - e'.2 > ttl := by
        obtain ⟨e', he', h⟩ := hl
        exact ⟨e', List.mem_cons_of_mem _ he', h⟩
      rw [if_pos hl, if_pos this]
    · rw [if_neg hl]
      by_cases he : e.1 = n ∧ now - e.2 > ttl
      · have : ∃ e' ∈ e :: l, e'.1 = n ∧ now - e'.2 > ttl := ⟨e, List.mem_cons_self _ _, he⟩
        rw [if_pos this, if_pos he.2, ← he.1]
        exact AList.lookup_erase _ _
      · have : ¬ ∃ e' ∈ e :: l, e'.1 = n ∧ now - e'.2 > ttl := by
          rintro ⟨e', he', h⟩
          rcases List.mem_cons.1 he' with rfl | hmem
          · exact he h
          · exact hl ⟨e', hmem, h⟩
        rw [if_neg this]
        by_cases hc : now - e.2 > ttl
        · rw [if_pos hc]
          have hne : n ≠ e.1 := fun h => he ⟨h.symm, hc⟩
          exact AList.lookup_erase_ne hne
        · rw [if_neg hc]

/-- What a sweep does to each nonce: the entry goes exactly when it is older than
the TTL. -/
theorem cleanup_lookup (s : ReplayProtectionStore) (now : Time) (n : GoString) :
    (s.cleanup now).seenNonces.lookup n =
      match s.seenNonces.lookup n with
      | some seenAt => if now - seenAt > s.ttl then none else some seenAt
      | none => none := by
  unfold ReplayProtectionStore.cleanup
  simp only []
  rw [cleanup_fold_lookup]
  cases hlook : s.seenNonces.lookup n with
  | none =>
    simp only []
    split
    · rfl
    · rfl
  | some seenAt =>
    simp only []
    have hmem : (⟨n, seenAt⟩ : Sigma fun _ : GoString => Time) ∈ s.seenNonces.entries :=
      AList.mem_lookup_iff.1 (by rw [hlook]; exact rfl)
    by_cases hc : now - seenAt > s.ttl
    · rw [if_pos hc, if_pos ⟨⟨n, seenAt⟩, hmem, rfl, hc⟩]
    · rw [if_neg hc, if_neg]
      rintro ⟨e, he, hk, hcond⟩
      obtain ⟨k, t⟩ := e
      simp only at hk hcond
      subst hk
      have : t ∈ s.seenNonces.lookup k := AList.mem_lookup_iff.2 he
      rw [hlook] at this
      cases this
      exact hc hcond

theorem cleanup_ttl (s : ReplayProtectionStore) (now : Time) : (s.cleanup now).ttl = s.ttl := rfl

theorem IsReplay_lookup (s : ReplayProtectionStore) (now : Time) (nonce : GoString)
    (timestamp : Int) (n : GoString) :
    (s.IsReplay now nonce timestamp).2.seenNonces.lookup n =
      if (s.IsReplay now nonce timestamp).1 = false ∧ n = nonce then some now
      else s.seenNonces.lookup n := by
  rw [IsReplay_store]
  by_cases hv : (s.IsReplay now nonce timestamp).1 = true
  · rw [if_pos hv, if_neg]
    rintro ⟨h, _⟩
    rw [hv] at h
    cases h
  · have hf : (s.IsReplay now nonce timestamp).1 = false := by
      cases h : (s.IsReplay now nonce timestamp).1
      · rfl
      · exact absurd h hv
    rw [if_neg hv]
    by_cases hn : n = nonce
    · rw [if_pos ⟨hf, hn⟩, hn]
      exact AList.lookup_insert _
    · rw [if_neg (fun h => hn h.2)]
      exact AList.lookup_insert_ne hn

/-! ## Request pipeline -/

theorem afterLookup_reaches (env : Env) (r : Rand) (t2 : Time) (st : GatewayState)
    (req : KyberLinkRequest) (privKey : PrivateKey) (ct ss frame json : Bytes)
    (payload : GatewayRequestPayload)
    (h3 : env.Base64Decode req.SecretCiphertext = some ct)
    (h4 : env.Decapsulate privKey ct = some ss)
    (h5 : env.Base64Decode req.EncryptedData = some frame)
    (h6 : DecryptAESGCMWithSession env.P frame ss req.SessionID = .ok json)
    (h7 : env.jsonUnmarshal json = some payload)
    (h8 : (st.replay.IsReplay t2 payload.Nonce payload.Timestamp).1 = false) :
    afterLookup env r t2 st req privKey =
      forward env r
        { st with replay := (st.replay.IsReplay t2 payload.Nonce payload.Timestamp).2 }
        req payload := by
  unfold afterLookup
  simp only [h3, h4, h5, h6, h7]
  revert h8
  generalize st.replay.IsReplay t2 payload.Nonce payload.Timestamp = res
  obtain ⟨v, rs⟩ := res
  intro h8
  simp only at h8
  subst h8
  rfl

theorem handle_reaches (env : Env) (r : Rand) (t1 t2 : Time) (st : GatewayState) (body : Bytes)
    (req : KyberLinkRequest) (payload : GatewayRequestPayload)
    (h : ReachesValidation env t1 t2 st body req payload) :
    (HandleGateway env r t1 t2 st body).response =
      (forward env r
        { st with replay := (st.replay.IsReplay t2 payload.Nonce payload.Timestamp).2 }
        req payload).response ∧
    (HandleGateway env r t1 t2 st body).effects =
      (forward env r
        { st with replay := (st.replay.IsReplay t2 payload.Nonce payload.Timestamp).2 }
        req payload).effects := by
  obtain ⟨privKey, ct, ss, frame, json, h1, h2, h3, h4, h5, h6, h7, h8⟩ := h
  have := handle_lookup_ok env r t1 t2 st body req privKey h1 h2
  rw [afterLookup_reaches env r t2 st req privKey ct ss frame json payload h3 h4 h5 h6 h7 h8]
    at this
  exact this

theorem secureResponse_effects (env : Env) (r : Rand) (st : GatewayState) (eff : List Effect)
    (req : KyberLinkRequest) (respBody : Bytes) :
    (secureResponse env r st eff req respBody).effects = eff := by
  unfold secureResponse
  repeat' split
  all_goals rfl

/-- The effects of the forwarding phase: nothing, or the one request built and sent. -/
theorem forward_effects (env : Env) (r : Rand) (st : GatewayState) (req : KyberLinkRequest)
    (payload : GatewayRequestPayload) :
    (forward env r st req payload).effects = [] ∨
    (HasPrefix payload.FinalAPI (ascii "/") = true ∧
      HasPrefix payload.FinalAPI (ascii "http://") = false ∧
      HasPrefix payload.FinalAPI (ascii "https://") = false ∧
      (forward env r st req payload).effects =
        .built (proxyRequestOf env payload) ::
          (env.wire (proxyRequestOf env payload)).map Effect.sent) := by
  unfold forward
  simp only []
  split
  · exact Or.inl rfl
  · rename_i habs
    split
    · exact Or.inl rfl
    · rename_i hslash
      split
      · exact Or.inl rfl
      · simp only [Bool.or_eq_true, not_or, Bool.not_eq_true] at habs
        simp only [Bool.not_eq_true', Bool.not_eq_false] at hslash
        refine Or.inr ⟨hslash, habs.1, habs.2, ?_⟩
        split
        · rfl
        · split
          · rfl
          · exact secureResponse_effects _ _ _ _ _ _

theorem forward_rejects (env : Env) (r : Rand) (st : GatewayState) (req : KyberLinkRequest)
    (payload : GatewayRequestPayload)
    (hbad : HasPrefix payload.FinalAPI (ascii "/") = false ∨
      HasPrefix payload.FinalAPI (ascii "http://") = true ∨
      HasPrefix payload.FinalAPI (ascii "https://") = true) :
    (forward env r st req payload).response.status = 400 ∧
    (forward env r st req payload).effects = [] := by
  unfold forward
  simp only []
  split
  · exact ⟨rfl, rfl⟩
  · rename_i habs
    simp only [Bool.or_eq_true, not_or, Bool.not_eq_true] at habs
    split
    · exact ⟨rfl, rfl⟩
    · rename_i hslash
      simp only [Bool.not_eq_true', Bool.not_eq_false] at hslash
      rcases hbad with h | h | h
      · rw [h] at hslash; cases hslash
      · rw [h] at habs; cases habs.1
      · rw [h] at habs; cases habs.2

/-- In any run there is no backend traffic unless the run reaches the path
validation. -/
theorem handle_effects (env : Env) (r : Rand) (t1 t2 : Time) (st : GatewayState) (body : Bytes) :
    (HandleGateway env r t1 t2 st body).effects = [] ∨
    ∃ req payload, ReachesValidation env t1 t2 st body req payload := by
  unfold HandleGateway
  cases hb : env.ShouldBindJSON body with
  | none => exact Or.inl rfl
  | some req =>
    simp only []
    cases hg : st.sessions.GetSessionPrivateKey t1 req.SessionID with
    | mk res store =>
      cases res with
      | error e => exact Or.inl rfl
      | ok privKey =>
        simp only []
        have hstore : store = st.sessions := by
          have := GetSessionPrivateKey_store st.sessions t1 req.SessionID
          rw [hg] at this
          exact this
        subst hstore
        unfold afterLookup
        cases h3 : env.Base64Decode req.SecretCiphertext with
        | none => exact Or.inl rfl
        | some ct =>
          simp only []
          cases h4 : env.Decapsulate privKey ct with
          | none => exact Or.inl rfl
          | some ss =>
            simp only []
            cases h5 : env.Base64Decode req.EncryptedData with
            | none => exact Or.inl rfl
            | some frame =>
              simp only []
              cases h6 : DecryptAESGCMWithSession env.P frame ss req.SessionID with
              | error e => exact Or.inl rfl
              | ok json =>
                simp only []
                cases h7 : env.jsonUnmarshal json with
                | none => exact Or.inl rfl
                | some payload =>
                  simp only []
                  cases h8 : st.replay.IsReplay t2 payload.Nonce payload.Timestamp with
                  | mk v rs =>
                    cases v with
                    | true => exact Or.inl rfl
                    | false =>
                      exact Or.inr ⟨req, payload, privKey, ct, ss, frame, json, hb,
                        by rw [hg], h3, h4, h5, h6, h7, by rw [h8]⟩

theorem responseLimit_eq : responseLimit = 10 * 2 ^ 20 := by decide

theorem encrypt_succeeds (P : Primitives) (r : Rand) (data ss : Bytes) (S : GoString)
    (hss : ss.length = 32) (hr : ∀ p, r.failAt p = false) :
    ∃ encData encSaltIv, EncryptAESGCMWithSession P r data ss S = .ok (encData, encSaltIv) := by
  have hrev : ss.reverse.length = 32 := by rw [List.length_reverse]; exact hss
  have hkl : ∀ salt, ((List.range 32).map (P.hkdf ss salt (sessionInfo S))).length = 32 := by
    intro salt; simp
  cases h : EncryptAESGCMWithSession P r data ss S with
  | ok p => exact ⟨p.1, p.2, rfl⟩
  | error e =>
    exfalso
    unfold EncryptAESGCMWithSession at h
    simp only [hss, ne_eq, not_true_eq_false, if_false, reverseSecret_eq ss hss, Rand.Read, hr,
      Bool.false_eq_true, deriveAESKeyHKDF_eq, newGCM_32 _ (hkl _), gcmSeal, List.length_map,
      List.length_range, if_true, EncryptWithDirectKey, slice_full32 _ hrev, newGCM_32 _ hrev]
      at h
    cases h

theorem slash_not_absolute (s : GoString) (h : HasPrefix s (ascii "/") = true) :
    HasPrefix s (ascii "http://") = false ∧ HasPrefix s (ascii "https://") = false := by
  cases s with
  | nil => simp [HasPrefix, ascii] at h
  | cons c rest =>
    have hc : c = 47 := by
      simp [HasPrefix, ascii] at h
      exact h.symm
    subst hc
    constructor <;> rfl

theorem forward_oversize (env : Env) (r : Rand) (st : GatewayState) (req : KyberLinkRequest)
    (payload : GatewayRequestPayload) (resp : BackendBody)
    (hslash : HasPrefix payload.FinalAPI (ascii "/") = true)
    (hnew : env.newRequestOk payload.Method (env.BackendURL ++ payload.FinalAPI) = true)
    (hdo : env.Do (proxyRequestOf env payload) = some resp)
    (hbig : resp.data.length > 10 * 2 ^ 20) :
    forward env r st req payload =
      secureResponse env r st
        (.built (proxyRequestOf env payload) ::
          (env.wire (proxyRequestOf env payload)).map Effect.sent) req
        (resp.data.take (10 * 2 ^ 20)) := by
  obtain ⟨h1, h2⟩ := slash_not_absolute _ hslash
  have hdo' := hdo
  unfold proxyRequestOf at hdo'
  have hread : readAllLimited resp responseLimit = some (resp.data.take (10 * 2 ^ 20)) := by
    rw [responseLimit_eq]
    unfold readAllLimited
    rw [if_pos (by omega)]
  unfold forward
  simp only [h1, h2, hslash, hnew, hdo', hread, Bool.or_self, Bool.not_true, Bool.false_eq_true,
    if_false]
  rfl

theorem secureResponse_response (env : Env) (r : Rand) (st st' : GatewayState)
    (eff eff' : List Effect) (req : KyberLinkRequest) (respBody : Bytes) :
    (secureResponse env r st eff req respBody).response =
      (secureResponse env r st' eff' req respBody).response := by
  unfold secureResponse
  repeat' split
  all_goals rfl

theorem secureResponse_not_readError (env : Env) (r : Rand) (st : GatewayState)
    (eff : List Effect) (req : KyberLinkRequest) (respBody : Bytes) :
    (secureResponse env r st eff req respBody).response
      ≠ { status := 500, body := .error "Read Error" } := by
  unfold secureResponse
  repeat' split
  all_goals simp [reject]

theorem secureResponse_ok (env : Env) (r : Rand) (st : GatewayState)
    (eff : List Effect) (req : KyberLinkRequest) (respBody pkBytes : Bytes) (pk : PublicKey)
    (ct ss encData encSaltIv : Bytes)
    (h1 : env.Base64Decode req.ClientPublicKey = some pkBytes)
    (h2 : env.UnmarshalPublicKey pkBytes = some pk)
    (h3 : env.Encapsulate pk = some (ct, ss))
    (h4 : EncryptAESGCMWithSession env.P r respBody ss req.SessionID = .ok (encData, encSaltIv)) :
    (secureResponse env r st eff req respBody).response =
      { status := 200
        body := .envelope { Version := 1, SecretCiphertext := env.Base64Encode (ct ++ encSaltIv),
                            EncryptedData := env.Base64Encode encData } } := by
  unfold secureResponse
  simp only [h1, h2, h3, h4]

/-- An oversize backend body is cut to its first 10 MiB and then handled like
any other body. -/
theorem handle_oversize (env : Env) (r : Rand) (t1 t2 : Time) (st : GatewayState)
    (body : Bytes) (req : KyberLinkRequest) (payload : GatewayRequestPayload)
    (resp : BackendBody)
    (hreach : ReachesValidation env t1 t2 st body req payload)
    (hslash : HasPrefix payload.FinalAPI (ascii "/") = true)
    (hnew : env.newRequestOk payload.Method (env.BackendURL ++ payload.FinalAPI) = true)
    (hdo : env.Do (proxyRequestOf env payload) = some resp)
    (hbig : resp.data.length > 10 * 2 ^ 20) :
    (HandleGateway env r t1 t2 st body).response =
      (secureResponse env r st [] req (resp.data.take (10 * 2 ^ 20))).response := by
  rw [(handle_reaches env r t1 t2 st body req payload hreach).1,
    forward_oversize env r _ req payload resp hslash hnew hdo hbig]
  exact secureResponse_response _ _ _ _ _ _ _ _

theorem failsAt_response (env : Env) (r : Rand) (t1 t2 : Time) (st : GatewayState)
    (body : Bytes) (stage : Stage) (h : FailsAt env t1 st body stage) :
    (HandleGateway env r t1 t2 st body).response =
      { status := 400, body := .error (failureMessage stage) } := by
  cases stage with
  | decapsulation =>
    obtain ⟨req, privKey, ct, h1, h2, h3, h4⟩ := h
    rw [(handle_lookup_ok env r t1 t2 st body req privKey h1 h2).1]
    unfold afterLookup
    simp only [h3, h4]
    rfl
  | decryption =>
    obtain ⟨req, privKey, ct, ss, frame, e, h1, h2, h3, h4, h5, h6⟩ := h
    rw [(handle_lookup_ok env r t1 t2 st body req privKey h1 h2).1]
    unfold afterLookup
    simp only [h3, h4, h5, h6]
    rfl

/-! ## Claims about the pipeline, and instances -/

/-- Instance of C7 at the boundary: at `now = expires_at` the key of `session-1`
is returned and the store is unchanged. -/
theorem GetSessionPrivateKey_spec_witness :
    modelState.sessions.GetSessionPrivateKey (5 * Minute) (ascii "session-1")
      = (.ok { raw := [] }, modelState.sessions) :=
  (GetSessionPrivateKey_spec modelState.sessions (5 * Minute) (ascii "session-1")).2.2
    { SessionID := ascii "session-1", PublicKey := { raw := [] },
      PrivateKey := { raw := [] }, CreatedAt := 0, ExpiresAt := 5 * Minute }
    (by decide) (by decide)

set_option maxRecDepth 100000 in
/-- Instance of C2: a request for `/test1` that is served with 200; the session
`session-1` is in the store before the run and gone after it. -/
theorem one_shot_session_witness :
    modelState.sessions.sessions.lookup (ascii "session-1") ≠ none ∧
    (HandleGateway (modelEnv echoBackend) countingRand 0 0 modelState
      (modelBody (ascii "/test1"))).response.status = 200 ∧
    (HandleGateway (modelEnv echoBackend) countingRand 0 0 modelState
      (modelBody (ascii "/test1"))).state.sessions.sessions.lookup (ascii "session-1") = none :=
  ⟨by decide, by decide,
    (one_shot_session (modelEnv echoBackend) countingRand 0 0 modelState
      (modelBody (ascii "/test1")) (modelRequest (modelBody (ascii "/test1"))) { raw := [] }
      rfl rfl).1⟩

/-- The requests of `clientDo`: the first is the request it was given, there are
at most `budget` of them, and each further one is what the transport's redirect
answer to the one before it names. -/
theorem clientDo_wire (roundTrip : ProxyRequest → Exchange) :
    ∀ (budget : Nat) (req : ProxyRequest),
      ((clientDo roundTrip (budget + 1) req).1).head? = some req ∧
      (clientDo roundTrip budget req).1.length ≤ budget ∧
      List.Chain' (fun a b => roundTrip a = .redirect b) (clientDo roundTrip (budget + 1) req).1 := by
  intro budget
  induction budget with
  | zero =>
    intro req
    simp only [clientDo]
    cases roundTrip req <;> simp
  | succ n ih =>
    intro req
    obtain ⟨_, hlen, _⟩ := ih req
    refine ⟨?_, ?_, ?_⟩
    · simp only [clientDo]
      cases roundTrip req <;> rfl
    · have hstep : (clientDo roundTrip (n + 1) req).1.length ≤ n + 1 := by
        rw [clientDo]
        cases hrt : roundTrip req with
        | failed => simp
        | response body => simp
        | redirect next =>
          obtain ⟨_, hl, _⟩ := ih next
          simp only [List.length_cons]
          omega
      exact hstep
    · rw [clientDo]
      cases hrt : roundTrip req with
      | failed => simp
      | response body => simp
      | redirect next =>
        obtain ⟨hhead, _, hchain⟩ := ih next
        simp only []
        cases hl : (clientDo roundTrip (n + 1) next).1 with
        | nil => simp
        | cons a rest =>
          rw [hl] at hhead hchain
          simp only [List.head?_cons, Option.some.injEq] at hhead
          subst hhead
          exact List.Chain'.cons hrt hchain

/-- Claim C4, amended (SSRF guard).  In every run of `HandleGateway`: if the run
reaches the path validation with an inner request whose `finalApi` does not
start with `/`, or starts with `http://` or `https://`, the response is 400 and
no backend request is built or sent.  Otherwise there is no backend traffic at
all, or the run reached the validation with an inner request whose `finalApi`
starts with `/`, the one request built has the URL `BackendURL ++ finalApi`, it
is the first request on the wire, and every further request on the wire (at
most ten in all) is one that the HTTP client derived from the redirect answer
to the request before it. -/
theorem ssrf_guard (env : Env) (r : Rand) (nowLookup nowReplay : Time) (st : GatewayState)
    (body : Bytes) :
    (∀ req payload, ReachesValidation env nowLookup nowReplay st body req payload →
      (HasPrefix payload.FinalAPI (ascii "/") = false ∨
        HasPrefix payload.FinalAPI (ascii "http://") = true ∨
        HasPrefix payload.FinalAPI (ascii "https://") = true) →
      (HandleGateway env r nowLookup nowReplay st body).response.status = 400 ∧
      (HandleGateway env r nowLookup nowReplay st body).effects = []) ∧
    ((HandleGateway env r nowLookup nowReplay st body).effects = [] ∨
      ∃ req payload wire, ReachesValidation env nowLookup nowReplay st body req payload ∧
        HasPrefix payload.FinalAPI (ascii "/") = true ∧
        (HandleGateway env r nowLookup nowReplay st body).effects =
          .built (proxyRequestOf env payload) :: wire.map Effect.sent ∧
        (proxyRequestOf env payload).url = env.BackendURL ++ payload.FinalAPI ∧
        wire.head? = some (proxyRequestOf env payload) ∧
        wire.length ≤ 10 ∧
        List.Chain' (fun a b => env.RoundTrip a = .redirect b) wire) := by
  constructor
  · intro req payload hreach hbad
    obtain ⟨h1, h2⟩ := handle_reaches env r nowLookup nowReplay st body req payload hreach
    rw [h1, h2]
    exact forward_rejects env r _ req payload hbad
  · rcases handle_effects env r nowLookup nowReplay st body with hnil | ⟨req, payload, hreach⟩
    · exact Or.inl hnil
    · obtain ⟨_, h2⟩ := handle_reaches env r nowLookup nowReplay st body req payload hreach
      rw [h2]
      rcases forward_effects env r
          { st with replay := (st.replay.IsReplay nowReplay payload.Nonce payload.Timestamp).2 }
          req payload with hnil | ⟨hslash, _, _, heff⟩
      · exact Or.inl hnil
      · obtain ⟨hhead, _, hchain⟩ := clientDo_wire env.RoundTrip 9 (proxyRequestOf env payload)
        have hlen := (clientDo_wire env.RoundTrip 10 (proxyRequestOf env payload)).2.1
        exact Or.inr ⟨req, payload, env.wire (proxyRequestOf env payload), hreach, hslash, heff,
          rfl, hhead, hlen, hchain⟩

set_option maxRecDepth 100000 in
theorem modelBody_reaches (backend : ProxyRequest → Option BackendBody) (api : GoString)
    (h : DecryptAESGCMWithSession modelPrimitives ((modelBody api).drop 1568)
      ((modelBody api).take 32) (ascii "session-1") = .ok api)
    (hct : ((modelBody api).take 1568).length = 1568) :
    ReachesValidation (modelEnv backend) 0 0 modelState (modelBody api)
      (modelRequest (modelBody api)) (modelPayload api) := by
  refine ⟨{ raw := [] }, (modelBody api).take 1568, (modelBody api).take 32,
    (modelBody api).drop 1568, api, rfl, rfl, rfl, ?_, rfl, ?_, rfl, rfl⟩
  · show (if ((modelBody api).take 1568).length = 1568 then
      some (((modelBody api).take 1568).take 32) else none) = _
    rw [if_pos hct, List.take_take]
    rfl
  · exact h

set_option maxRecDepth 100000 in
/-- Instance of C4: the inner request `http://evil.example/pwn` reaches the
validation and is answered 400 with no backend traffic. -/
theorem ssrf_guard_witness :
    ReachesValidation (modelEnv echoBackend) 0 0 modelState
      (modelBody (ascii "http://evil.example/pwn"))
      (modelRequest (modelBody (ascii "http://evil.example/pwn")))
      (modelPayload (ascii "http://evil.example/pwn")) ∧
    (HandleGateway (modelEnv echoBackend) countingRand 0 0 modelState
      (modelBody (ascii "http://evil.example/pwn"))).response.status = 400 ∧
    (HandleGateway (modelEnv echoBackend) countingRand 0 0 modelState
      (modelBody (ascii "http://evil.example/pwn"))).effects = [] :=
  ⟨modelBody_reaches echoBackend (ascii "http://evil.example/pwn") (by rfl) (by rfl),
    (ssrf_guard (modelEnv echoBackend) countingRand 0 0 modelState
      (modelBody (ascii "http://evil.example/pwn"))).1 _ _
      (modelBody_reaches echoBackend (ascii "http://evil.example/pwn") (by rfl) (by rfl))
      (Or.inr (Or.inl (by decide)))⟩

set_option maxRecDepth 100000 in
theorem test1_reaches_redirect :
    ReachesValidation redirectEnv 0 0 modelState (modelBody (ascii "/test1"))
      (modelRequest (modelBody (ascii "/test1"))) (modelPayload (ascii "/test1")) :=
  modelBody_reaches echoBackend (ascii "/test1") (by rfl) (by rfl)

set_option maxRecDepth 100000 in
/-- Counterexample to C4 as stated.  The inner request asks for `/test1`; the
backend answers the request to `http://localhost:34890/test1` with a redirect,
and the HTTP client of the handler, which has no redirect policy of its own,
follows it: a request goes to `http://evil.example/pwn`, a URL that does not
start with `BackendURL`, and the run ends with 200. -/
theorem ssrf_guard_counterexample :
    ReachesValidation redirectEnv 0 0 modelState (modelBody (ascii "/test1"))
      (modelRequest (modelBody (ascii "/test1"))) (modelPayload (ascii "/test1")) ∧
    redirectEnv.RoundTrip (proxyRequestOf redirectEnv (modelPayload (ascii "/test1"))) =
      .redirect { proxyRequestOf redirectEnv (modelPayload (ascii "/test1")) with
                  url := ascii "http://evil.example/pwn" } ∧
    Effect.sent { proxyRequestOf redirectEnv (modelPayload (ascii "/test1")) with
                  url := ascii "http://evil.example/pwn" } ∈
      (HandleGateway redirectEnv countingRand 0 0 modelState
        (modelBody (ascii "/test1"))).effects ∧
    HasPrefix (ascii "http://evil.example/pwn") redirectEnv.BackendURL = false ∧
    (HandleGateway redirectEnv countingRand 0 0 modelState
      (modelBody (ascii "/test1"))).response.status = 200 :=
  ⟨test1_reaches_redirect, by decide, by decide, by decide, by decide⟩

/-- Claim C8, amended (failure responses).  For any two requests to
`HandleGateway` that pass the session lookup and then fail at KEM decapsulation
or at envelope decryption (whatever the step of the decryption that failed):
both responses have status 400; if the two fail at the same stage the responses
are identical, status and body, so the step inside the envelope decryption
cannot be told apart; if one fails at decapsulation and the other at decryption
the bodies differ ("Decapsulation failed" and "Decryption failed"). -/
theorem failure_responses (env : Env) (rA rB : Rand) (lookupA replayA lookupB replayB : Time)
    (stA stB : GatewayState) (bodyA bodyB : Bytes) (stageA stageB : Stage)
    (hA : FailsAt env lookupA stA bodyA stageA) (hB : FailsAt env lookupB stB bodyB stageB) :
    (HandleGateway env rA lookupA replayA stA bodyA).response.status = 400 ∧
    (HandleGateway env rB lookupB replayB stB bodyB).response.status = 400 ∧
    (stageA = stageB →
      (HandleGateway env rA lookupA replayA stA bodyA).response
        = (HandleGateway env rB lookupB replayB stB bodyB).response) ∧
    (stageA ≠ stageB →
      (HandleGateway env rA lookupA replayA stA bodyA).response.body
        ≠ (HandleGateway env rB lookupB replayB stB bodyB).response.body) := by
  rw [failsAt_response env rA lookupA replayA stA bodyA stageA hA,
    failsAt_response env rB lookupB replayB stB bodyB stageB hB]
  refine ⟨rfl, rfl, ?_, ?_⟩
  · intro h
    rw [h]
  · intro h
    cases stageA <;> cases stageB <;> first | exact absurd rfl h | decide

set_option maxRecDepth 100000 in
/-- Two requests that fail inside the envelope decryption at different steps. -/
theorem modelState_failsAt_decryption :
    FailsAt (modelEnv echoBackend) 0 modelState (List.replicate 1568 0) .decryption ∧
    FailsAt (modelEnv echoBackend) 0 modelState (List.replicate 1568 0 ++ [0, 5]) .decryption :=
  ⟨⟨modelRequest (List.replicate 1568 0), { raw := [] }, List.replicate 1568 0,
      List.replicate 32 0, [], .dataTooShort, rfl, rfl, by rfl, by rfl, by rfl, by rfl⟩,
    ⟨modelRequest (List.replicate 1568 0 ++ [0, 5]), { raw := [] }, List.replicate 1568 0,
      List.replicate 32 0, [0, 5], .shorterThanDeclared, rfl, rfl, by rfl, by rfl, by rfl,
      by rfl⟩⟩

set_option maxRecDepth 100000 in
/-- A request that fails at decapsulation: its KEM ciphertext is empty. -/
theorem modelState_failsAt_decapsulation :
    FailsAt (modelEnv echoBackend) 0 modelState [] .decapsulation :=
  ⟨modelRequest [], { raw := [] }, [], rfl, rfl, by rfl, by rfl⟩

/-- Instance of C8, amended: a frame that is too short and a frame shorter than
its declared salt/IV length get the same response. -/
theorem failure_responses_witness :
    (FailsAt (modelEnv echoBackend) 0 modelState (List.replicate 1568 0) .decryption ∧
      FailsAt (modelEnv echoBackend) 0 modelState (List.replicate 1568 0 ++ [0, 5])
        .decryption) ∧
    (HandleGateway (modelEnv echoBackend) countingRand 0 0 modelState
        (List.replicate 1568 0)).response
      = (HandleGateway (modelEnv echoBackend) countingRand 0 0 modelState
        (List.replicate 1568 0 ++ [0, 5])).response :=
  ⟨modelState_failsAt_decryption,
    (failure_responses (modelEnv echoBackend) countingRand countingRand 0 0 0 0 modelState
      modelState (List.replicate 1568 0) (List.replicate 1568 0 ++ [0, 5]) .decryption
      .decryption modelState_failsAt_decryption.1 modelState_failsAt_decryption.2).2.2.1 rfl⟩

/-- Counterexample to C8 as stated.  Both requests pass the session lookup; the
first fails at KEM decapsulation (empty ciphertext), the second at envelope
decryption (empty frame); the responses are 400 "Decapsulation failed" and
400 "Decryption failed", which differ. -/
theorem failure_responses_counterexample :
    FailsAt (modelEnv echoBackend) 0 modelState [] .decapsulation ∧
    FailsAt (modelEnv echoBackend) 0 modelState (List.replicate 1568 0) .decryption ∧
    (HandleGateway (modelEnv echoBackend) countingRand 0 0 modelState []).response
      = { status := 400, body := .error "Decapsulation failed" } ∧
    (HandleGateway (modelEnv echoBackend) countingRand 0 0 modelState
        (List.replicate 1568 0)).response
      = { status := 400, body := .error "Decryption failed" } ∧
    (HandleGateway (modelEnv echoBackend) countingRand 0 0 modelState []).response
      ≠ (HandleGateway (modelEnv echoBackend) countingRand 0 0 modelState
        (List.replicate 1568 0)).response := by
  have h1 := failsAt_response (modelEnv echoBackend) countingRand 0 0 modelState []
    .decapsulation modelState_failsAt_decapsulation
  have h2 := failsAt_response (modelEnv echoBackend) countingRand 0 0 modelState
    (List.replicate 1568 0) .decryption modelState_failsAt_decryption.1
  refine ⟨modelState_failsAt_decapsulation, modelState_failsAt_decryption.1, h1, h2, ?_⟩
  rw [h1, h2]
  decide

/-- Claim C9, amended (backend response size cap).  When the backend response
body is longer than 10 MiB, `HandleGateway` keeps its first `10 * 2^20` bytes
and carries on as for a response with that body: the overrun is not a read
error, the response is never 500 "Read Error", and when the steps of the secure
response succeed it is the 200 envelope of the truncated body. -/
theorem oversize_response (env : Env) (r : Rand) (nowLookup nowReplay : Time)
    (st : GatewayState) (body : Bytes) (req : KyberLinkRequest)
    (payload : GatewayRequestPayload) (resp : BackendBody)
    (hreach : ReachesValidation env nowLookup nowReplay st body req payload)
    (hslash : HasPrefix payload.FinalAPI (ascii "/") = true)
    (hnew : env.newRequestOk payload.Method (env.BackendURL ++ payload.FinalAPI) = true)
    (hdo : env.Do (proxyRequestOf env payload) = some resp)
    (hbig : resp.data.length > 10 * 2 ^ 20) :
    (HandleGateway env r nowLookup nowReplay st body).response =
      (secureResponse env r st [] req (resp.data.take (10 * 2 ^ 20))).response ∧
    (HandleGateway env r nowLookup nowReplay st body).response
      ≠ { status := 500, body := .error "Read Error" } ∧
    (∀ pkBytes pk ct ss encData encSaltIv,
      env.Base64Decode req.ClientPublicKey = some pkBytes →
      env.UnmarshalPublicKey pkBytes = some pk →
      env.Encapsulate pk = some (ct, ss) →
      EncryptAESGCMWithSession env.P r (resp.data.take (10 * 2 ^ 20)) ss req.SessionID
        = .ok (encData, encSaltIv) →
      (HandleGateway env r nowLookup nowReplay st body).response =
        { status := 200
          body := .envelope
            { Version := 1, SecretCiphertext := env.Base64Encode (ct ++ encSaltIv),
              EncryptedData := env.Base64Encode encData } }) := by
  have h := handle_oversize env r nowLookup nowReplay st body req payload resp hreach hslash
    hnew hdo hbig
  refine ⟨h, ?_, ?_⟩
  · rw [h]
    exact secureResponse_not_readError _ _ _ _ _ _
  · intro pkBytes pk ct ss encData encSaltIv h1 h2 h3 h4
    rw [h]
    exact secureResponse_ok env r st [] req _ pkBytes pk ct ss encData encSaltIv h1 h2 h3 h4

set_option maxRecDepth 100000 in
theorem test1_reaches (backend : ProxyRequest → Option BackendBody) :
    ReachesValidation (modelEnv backend) 0 0 modelState (modelBody (ascii "/test1"))
      (modelRequest (modelBody (ascii "/test1"))) (modelPayload (ascii "/test1")) :=
  modelBody_reaches backend (ascii "/test1") (by rfl) (by rfl)

theorem oversize_length :
    (List.replicate (10 * 2 ^ 20 + 1) (0 : Byte)).length > 10 * 2 ^ 20 := by
  rw [List.length_replicate]
  omega

set_option maxRecDepth 100000 in
/-- The secure response of `modelEnv` to the first 10 MiB of the oversize body is
a 200. -/
theorem oversize_secureResponse_status :
    (secureResponse (modelEnv oversizeBackend) countingRand modelState []
      (modelRequest (modelBody (ascii "/test1")))
      ((List.replicate (10 * 2 ^ 20 + 1) (0 : Byte)).take (10 * 2 ^ 20))).response.status
      = 200 := by
  obtain ⟨encData, encSaltIv, henc⟩ := encrypt_succeeds modelPrimitives countingRand
    ((List.replicate (10 * 2 ^ 20 + 1) (0 : Byte)).take (10 * 2 ^ 20))
    ((List.replicate 1568 (0 : Byte)).take 32) (ascii "session-1") (by decide) (fun _ => rfl)
  rw [secureResponse_ok (modelEnv oversizeBackend) countingRand modelState []
    (modelRequest (modelBody (ascii "/test1"))) _ (List.replicate 1568 0)
    { raw := List.replicate 1568 0 } (List.replicate 1568 0)
    ((List.replicate 1568 (0 : Byte)).take 32) encData encSaltIv rfl (by rfl) (by rfl) henc]

set_option maxRecDepth 100000 in
/-- Instance of C9, amended: against `oversizeBackend` the response is not the
500 "Read Error". -/
theorem oversize_response_witness :
    (List.replicate (10 * 2 ^ 20 + 1) (0 : Byte)).length > 10 * 2 ^ 20 ∧
    (HandleGateway (modelEnv oversizeBackend) countingRand 0 0 modelState
      (modelBody (ascii "/test1"))).response ≠ { status := 500, body := .error "Read Error" } :=
  ⟨oversize_length,
    (oversize_response (modelEnv oversizeBackend) countingRand 0 0 modelState
      (modelBody (ascii "/test1")) (modelRequest (modelBody (ascii "/test1")))
      (modelPayload (ascii "/test1"))
      { data := List.replicate (10 * 2 ^ 20 + 1) 0, readError := false }
      (test1_reaches oversizeBackend) (by decide) rfl rfl oversize_length).2.1⟩

set_option maxRecDepth 100000 in
/-- Counterexample to C9 as stated.  The backend answers the request for
`/test1` with a body of `10 * 2^20 + 1` bytes, one more than 10 MiB; the handler
responds 200, not 500. -/
theorem oversize_response_counterexample :
    oversizeBackend (proxyRequestOf (modelEnv oversizeBackend) (modelPayload (ascii "/test1")))
      = some { data := List.replicate (10 * 2 ^ 20 + 1) 0, readError := false } ∧
    (List.replicate (10 * 2 ^ 20 + 1) (0 : Byte)).length > 10 * 2 ^ 20 ∧
    (HandleGateway (modelEnv oversizeBackend) countingRand 0 0 modelState
      (modelBody (ascii "/test1"))).response.status = 200 := by
  refine ⟨rfl, oversize_length, ?_⟩
  rw [handle_oversize (modelEnv oversizeBackend) countingRand 0 0 modelState
      (modelBody (ascii "/test1")) (modelRequest (modelBody (ascii "/test1")))
      (modelPayload (ascii "/test1"))
      { data := List.replicate (10 * 2 ^ 20 + 1) 0, readError := false }
      (test1_reaches oversizeBackend) (by decide) rfl rfl oversize_length]
  exact oversize_secureResponse_status

/-! ## Frame parsing -/

theorem shift_or_eq (b0 b1 : Byte) : b0.val <<< 8 ||| b1.val = 256 * b0.val + b1.val := by
  have h : (b1.val : Nat) < 2 ^ 8 := by have := b1.isLt; omega
  rw [Nat.shiftLeft_eq, Nat.mul_comm, ← Nat.mul_add_lt_is_or h]

theorem directDecrypt_cases (P : Primitives) (E key : Bytes) (hk : key.length = 32) :
    DecryptWithDirectKey P E key =
      if E.length < 12 then .error .dataTooShortForIV
      else
        match P.Open key (E.take 12) (E.drop 12) [] with
        | none => .error .directDecryptFailed
        | some pt => .ok pt := by
  unfold DecryptWithDirectKey
  rw [slice_full32 key hk]
  simp only [newGCM_32 key hk]
  by_cases h12 : E.length < 12
  · simp [h12]
  · have hlen : (E.take 12).length = 12 := by
      simp; omega
    simp only [h12, if_false, slice_ok E 0 12 (by omega) (by omega), sliceFrom,
      slice_ok E 12 E.length (by omega) (le_refl _), gcmOpen, List.drop_zero, hlen, if_true,
      List.take_length]
    cases P.Open key (E.take 12) (E.drop 12) [] <;> rfl

/-- The whole of `DecryptAESGCMWithSession` on a 32-byte secret, guard by guard. -/
theorem decrypt_cases (P : Primitives) (F ss : Bytes) (S : GoString) (hss : ss.length = 32) :
    DecryptAESGCMWithSession P F ss S =
      if F.length < 2 then .error .dataTooShort
      else if F.length < 2 + declaredLength F then .error .shorterThanDeclared
      else if declaredLength F < 12 then .error (.saltIvDecryptFailed .dataTooShortForIV)
      else
        match P.Open ss.reverse (((F.take (2 + declaredLength F)).drop 2).take 12)
            (((F.take (2 + declaredLength F)).drop 2).drop 12) [] with
        | none => .error (.saltIvDecryptFailed .directDecryptFailed)
        | some saltIv =>
          if saltIv.length ≠ 28 then .error .invalidSaltIvLength
          else
            match P.Open ((List.range 32).map (P.hkdf ss (saltIv.take 16) (sessionInfo S)))
                (saltIv.drop 16) (F.drop (2 + declaredLength F)) (sessionInfo S) with
            | none => .error .gcmDecryptFailed
            | some pt => .ok pt := by
  unfold DecryptAESGCMWithSession
  have hrev : ss.reverse.length = 32 := by rw [List.length_reverse]; exact hss
  simp only [hss, ne_eq, not_true_eq_false, if_false, reverseSecret_eq ss hss]
  by_cases h2 : F.length < 2
  · simp [h2]
  obtain ⟨b0, b1, rest, rfl⟩ : ∃ b0 b1 rest, F = b0 :: b1 :: rest := by
    match F, h2 with
    | [], h => simp at h
    | [_], h => simp at h
    | b0 :: b1 :: rest, _ => exact ⟨b0, b1, rest, rfl⟩
  have hi0 : index (b0 :: b1 :: rest) 0 = .ok b0 := by simp [index]
  have hi1 : index (b0 :: b1 :: rest) 1 = .ok b1 := by simp [index]
  have hL : declaredLength (b0 :: b1 :: rest) = b0.val <<< 8 ||| b1.val := by
    rw [shift_or_eq]
    simp [declaredLength]
  simp only [h2, if_false, hi0, hi1, hL]
  generalize b0.val <<< 8 ||| b1.val = L
  generalize b0 :: b1 :: rest = F at *
  by_cases h3 : F.length < 2 + L
  · simp [h3]
  simp only [h3, if_false, slice_ok F 2 (2 + L) (by omega) (by omega), sliceFrom,
    slice_ok F (2 + L) F.length (by omega) (le_refl _), List.take_length,
    directDecrypt_cases P _ ss.reverse hrev]
  have hE : ((F.take (2 + L)).drop 2).length = L := by
    simp; omega
  rw [hE]
  by_cases h12 : L < 12
  · simp [h12]
  simp only [h12, if_false]
  cases hO : P.Open ss.reverse (((F.take (2 + L)).drop 2).take 12)
      (((F.take (2 + L)).drop 2).drop 12) [] with
  | none => rfl
  | some saltIv =>
    simp only []
    by_cases h28 : saltIv.length = 28
    swap
    · simp [h28]
    have hkl : ((List.range 32).map (P.hkdf ss (saltIv.take 16) (sessionInfo S))).length
        = 32 := by simp
    have hivl : (saltIv.drop 16).length = 12 := by simp [h28]
    have ht28 : saltIv.take 28 = saltIv := List.take_of_length_le (by omega)
    simp only [h28, ne_eq, not_true_eq_false, if_false, slice_ok saltIv 0 16 (by omega) (by omega),
      slice_ok saltIv 16 28 (by omega) (by omega), List.drop_zero, ht28, deriveAESKeyHKDF_eq,
      newGCM_32 _ hkl, gcmOpen, hivl, if_true]
    cases P.Open ((List.range 32).map (P.hkdf ss (saltIv.take 16) (sessionInfo S)))
      (saltIv.drop 16) (F.drop (2 + L)) (sessionInfo S) <;> rfl

/-! ## Sequences of calls on the replay store -/

theorem step_ttl (s : ReplayProtectionStore) (e : ReplayEvent) : (s.step e).ttl = s.ttl := by
  cases e with
  | isReplay now n ts =>
    show (s.IsReplay now n ts).2.ttl = s.ttl
    rw [IsReplay_store]
    split <;> rfl
  | cleanup now => rfl

theorem run_ttl (events : List ReplayEvent) :
    ∀ s : ReplayProtectionStore, (s.run events).ttl = s.ttl := by
  induction events with
  | nil => intro s; rfl
  | cons e es ih =>
    intro s
    show ((s.step e).run es).ttl = s.ttl
    rw [ih, step_ttl]

/-- A call that does not record `n` leaves the entry of `n` as it is, or, when
it is a sweep, removes it. -/
theorem step_lookup (s : ReplayProtectionStore) (n : GoString) (e : ReplayEvent)
    (rest : List ReplayEvent) (h : s.records n (e :: rest) = false) :
    (s.step e).records n rest = false ∧
    ((s.step e).seenNonces.lookup n = s.seenNonces.lookup n ∨
      (s.step e).seenNonces.lookup n = none) := by
  cases e with
  | isReplay now n' ts =>
    simp only [ReplayProtectionStore.records, Bool.or_eq_false_iff, Bool.and_eq_false_imp,
      decide_eq_true_eq, Bool.not_eq_false'] at h
    refine ⟨h.2, Or.inl ?_⟩
    show (s.IsReplay now n' ts).2.seenNonces.lookup n = _
    rw [IsReplay_store]
    by_cases hv : (s.IsReplay now n' ts).1 = true
    · rw [if_pos hv]
    · rw [if_neg hv]
      have hne : n ≠ n' := by
        intro heq
        exact hv (h.1 heq.symm)
      exact AList.lookup_insert_ne hne
  | cleanup now =>
    simp only [ReplayProtectionStore.records] at h
    refine ⟨h, ?_⟩
    show (s.cleanup now).seenNonces.lookup n = _ ∨ (s.cleanup now).seenNonces.lookup n = none
    rw [cleanup_lookup]
    cases s.seenNonces.lookup n with
    | none => exact Or.inl rfl
    | some t =>
      simp only []
      split
      · exact Or.inr rfl
      · exact Or.inl rfl

/-- Without a call that records it, a nonce that has no entry gets none. -/
theorem run_lookup_none (n : GoString) (events : List ReplayEvent) :
    ∀ s : ReplayProtectionStore, s.seenNonces.lookup n = none → s.records n events = false →
      (s.run events).seenNonces.lookup n = none := by
  induction events with
  | nil => intro s h _; exact h
  | cons e es ih =>
    intro s h hrec
    obtain ⟨hrec', hstep⟩ := step_lookup s n e es hrec
    show ((s.step e).run es).seenNonces.lookup n = none
    apply ih _ _ hrec'
    rcases hstep with h1 | h1
    · rw [h1, h]
    · exact h1

/-- Without a call that records the nonce again, its entry of time `t0` is gone
once the sequence holds a sweep at a time more than the TTL after `t0`. -/
theorem run_lookup_swept (n : GoString) (t0 sweep : Time) (events : List ReplayEvent) :
    ∀ s : ReplayProtectionStore,
      (s.seenNonces.lookup n = some t0 ∨ s.seenNonces.lookup n = none) →
      s.records n events = false → sweep - t0 > s.ttl → ReplayEvent.cleanup sweep ∈ events →
      (s.run events).seenNonces.lookup n = none := by
  induction events with
  | nil => intro s _ _ _ hmem; simp at hmem
  | cons e es ih =>
    intro s hinv hrec hlate hmem
    obtain ⟨hrec', hstep⟩ := step_lookup s n e es hrec
    show ((s.step e).run es).seenNonces.lookup n = none
    rcases List.mem_cons.1 hmem with heq | hmem'
    · subst heq
      apply run_lookup_none n es _ _ hrec'
      show (s.cleanup sweep).seenNonces.lookup n = none
      rw [cleanup_lookup]
      rcases hinv with h | h
      · rw [h]
        simp only []
        rw [if_pos hlate]
      · rw [h]
    · apply ih _ _ hrec' (by rw [step_ttl]; exact hlate) hmem'
      rcases hstep with h1 | h1
      · rw [h1]; exact hinv
      · exact Or.inr h1

/-- With sweeps one minute apart, one of them falls more than a minute and at
most two minutes after `t0`. -/
theorem sweep_in_window (start t0 : Int) (h : start ≤ t0) :
    ∃ k : Nat, 1 ≤ k ∧ t0 + Minute < start + k * Minute ∧ start + k * Minute ≤ t0 + 2 * Minute := by
  have hM : (0 : Int) < Minute := by decide
  have hq : 0 ≤ (t0 - start) / Minute := Int.ediv_nonneg (sub_nonneg.2 h) (le_of_lt hM)
  have hr0 := Int.emod_nonneg (t0 - start) (ne_of_gt hM)
  have hr1 := Int.emod_lt_of_pos (t0 - start) hM
  have hd := Int.emod_add_ediv (t0 - start) Minute
  refine ⟨((t0 - start) / Minute).toNat + 2, by omega, ?_, ?_⟩
  · push_cast
    rw [Int.toNat_of_nonneg hq]
    nlinarith
  · push_cast
    rw [Int.toNat_of_nonneg hq]
    nlinarith

theorem run_append (s : ReplayProtectionStore) (a b : List ReplayEvent) :
    s.run (a ++ b) = (s.run a).run b := List.foldl_append _ _ _ _

/-- An entry stays as it is through calls none of which is a sweep later than the
TTL after its time. -/
theorem run_lookup_kept (n : GoString) (t0 : Time) (post : List ReplayEvent) :
    ∀ s : ReplayProtectionStore, s.seenNonces.lookup n = some t0 →
      (∀ sweep, ReplayEvent.cleanup sweep ∈ post → sweep - t0 ≤ s.ttl) →
      (s.run post).seenNonces.lookup n = some t0 := by
  induction post with
  | nil => intro s h _; exact h
  | cons e es ih =>
    intro s h hs
    show ((s.step e).run es).seenNonces.lookup n = some t0
    apply ih
    · cases e with
      | isReplay now n' ts =>
        show (s.IsReplay now n' ts).2.seenNonces.lookup n = some t0
        rw [IsReplay_lookup]
        by_cases hc : (s.IsReplay now n' ts).1 = false ∧ n = n'
        · exfalso
          have hv : (s.IsReplay now n' ts).1 = true := by
            rw [IsReplay_verdict, ← hc.2, h]
            exact Or.inl rfl
          rw [hc.1] at hv
          cases hv
        · rw [if_neg hc, h]
      | cleanup sweep =>
        show (s.cleanup sweep).seenNonces.lookup n = some t0
        rw [cleanup_lookup, h]
        simp only []
        rw [if_neg (not_lt.2 (hs sweep (List.mem_cons_self _ _)))]
    · intro sweep hmem
      rw [step_ttl]
      exact hs sweep (List.mem_cons_of_mem _ hmem)

/-- Where an entry of the store comes from: a call of `IsReplay` for the nonce
that returned false at the time the entry holds, with no sweep later than the
TTL after that time among the calls that followed. -/
theorem run_lookup_iff (n : GoString) (t0 : Time) (events : List ReplayEvent) :
    (InitSecurity.run events).seenNonces.lookup n = some t0 ↔
      ∃ pre post ts0, events = pre ++ ReplayEvent.isReplay t0 n ts0 :: post ∧
        ((InitSecurity.run pre).IsReplay t0 n ts0).1 = false ∧
        ∀ sweep, ReplayEvent.cleanup sweep ∈ post → sweep - t0 ≤ 60 * Second := by
  constructor
  · induction events using List.reverseRecOn with
    | nil => intro h; cases h
    | append_singleton init e ih =>
      intro h
      rw [run_append] at h
      cases e with
      | isReplay now n' ts =>
        have h1 : ((InitSecurity.run init).IsReplay now n' ts).2.seenNonces.lookup n = some t0 := h
        rw [IsReplay_lookup] at h1
        by_cases hc : ((InitSecurity.run init).IsReplay now n' ts).1 = false ∧ n = n'
        · rw [if_pos hc] at h1
          cases h1
          obtain ⟨hv, rfl⟩ := hc
          exact ⟨init, [], ts, rfl, hv, by intro sweep hm; cases hm⟩
        · rw [if_neg hc] at h1
          obtain ⟨pre, post, ts0, heq, hv, hs⟩ := ih h1
          refine ⟨pre, post ++ [.isReplay now n' ts], ts0, by rw [heq]; simp, hv, ?_⟩
          intro sweep hm
          rcases List.mem_append.1 hm with hm | hm
          · exact hs sweep hm
          · simp at hm
      | cleanup sweep0 =>
        have h1 : ((InitSecurity.run init).cleanup sweep0).seenNonces.lookup n = some t0 := h
        rw [cleanup_lookup] at h1
        cases hl : (InitSecurity.run init).seenNonces.lookup n with
        | none => rw [hl] at h1; cases h1
        | some t1 =>
          rw [hl] at h1
          simp only [] at h1
          by_cases hc : sweep0 - t1 > (InitSecurity.run init).ttl
          · rw [if_pos hc] at h1; cases h1
          · rw [if_neg hc] at h1
            cases h1
            obtain ⟨pre, post, ts0, heq, hv, hs⟩ := ih hl
            refine ⟨pre, post ++ [.cleanup sweep0], ts0, by rw [heq]; simp, hv, ?_⟩
            intro sweep hm
            rcases List.mem_append.1 hm with hm | hm
            · exact hs sweep hm
            · simp only [List.mem_singleton, ReplayEvent.cleanup.injEq] at hm
              subst hm
              rw [run_ttl] at hc
              exact not_lt.1 hc
  · rintro ⟨pre, post, ts0, rfl, hv, hs⟩
    rw [run_append]
    show (((InitSecurity.run pre).IsReplay t0 n ts0).2.run post).seenNonces.lookup n = some t0
    apply run_lookup_kept
    · rw [IsReplay_lookup, if_pos ⟨hv, rfl⟩]
    · intro sweep hm
      have h1 := step_ttl (InitSecurity.run pre) (.isReplay t0 n ts0)
      have h2 := run_ttl pre InitSecurity
      show sweep - t0 ≤ ((InitSecurity.run pre).step (.isReplay t0 n ts0)).ttl
      rw [h1, h2]
      exact hs sweep hm

/-! ## Claims about the replay store, frame parsing and the reaper -/

/-- Claim C3, amended (replay rejection).  `IsReplay(n, t)` returns true exactly
when `n` has an entry in the store or `|now - t| > replay_ttl`; on true the store
is left as it is, on false `n` is recorded with the time `now` and nothing else
changes.  A sweep of the reaper at time `now` removes exactly the entries with
`now - observed_at > replay_ttl`.  So in every run from the initial store,
`IsReplay(n, t)` returns true exactly when an earlier `IsReplay` call recorded
`n` and no sweep since then ran more than `replay_ttl` after the recording, or
`|now - t| > replay_ttl`.  In particular a nonce recorded within `replay_ttl` of
`now` is reported; one recorded longer ago is still reported until a sweep
removes its entry. -/
theorem replay_rejection :
    (∀ (s : ReplayProtectionStore) (now : Time) (nonce : GoString) (timestamp : Int),
      ((s.IsReplay now nonce timestamp).1 = true ↔
        (∃ seenAt, s.seenNonces.lookup nonce = some seenAt) ∨
          |now - timestamp * Second| > s.ttl) ∧
      (s.IsReplay now nonce timestamp).2 =
        (if (s.IsReplay now nonce timestamp).1 = true then s
          else { s with seenNonces := s.seenNonces.insert nonce now }) ∧
      (∀ n, (s.IsReplay now nonce timestamp).2.seenNonces.lookup n =
        if (s.IsReplay now nonce timestamp).1 = false ∧ n = nonce then some now
        else s.seenNonces.lookup n)) ∧
    (∀ (s : ReplayProtectionStore) (sweep : Time) (n : GoString),
      (s.cleanup sweep).ttl = s.ttl ∧
      (s.cleanup sweep).seenNonces.lookup n =
        match s.seenNonces.lookup n with
        | some seenAt => if sweep - seenAt > s.ttl then none else some seenAt
        | none => none) ∧
    (∀ (events : List ReplayEvent) (now : Time) (nonce : GoString) (timestamp : Int),
      ((InitSecurity.run events).IsReplay now nonce timestamp).1 = true ↔
        (∃ pre post t0 ts0, events = pre ++ ReplayEvent.isReplay t0 nonce ts0 :: post ∧
          ((InitSecurity.run pre).IsReplay t0 nonce ts0).1 = false ∧
          ∀ sweep, ReplayEvent.cleanup sweep ∈ post → sweep - t0 ≤ 60 * Second) ∨
        |now - timestamp * Second| > 60 * Second) ∧
    (∀ (pre post : List ReplayEvent) (nonce : GoString) (t0 : Time) (ts0 : Int) (now : Time)
        (timestamp : Int),
      ((InitSecurity.run pre).IsReplay t0 nonce ts0).1 = false →
      (∀ e ∈ post, e.time ≤ now) → now - t0 ≤ 60 * Second →
      ((InitSecurity.run (pre ++ ReplayEvent.isReplay t0 nonce ts0 :: post)).IsReplay now nonce
        timestamp).1 = true) := by
  have hrun : ∀ (events : List ReplayEvent) (now : Time) (nonce : GoString) (timestamp : Int),
      ((InitSecurity.run events).IsReplay now nonce timestamp).1 = true ↔
        (∃ pre post t0 ts0, events = pre ++ ReplayEvent.isReplay t0 nonce ts0 :: post ∧
          ((InitSecurity.run pre).IsReplay t0 nonce ts0).1 = false ∧
          ∀ sweep, ReplayEvent.cleanup sweep ∈ post → sweep - t0 ≤ 60 * Second) ∨
        |now - timestamp * Second| > 60 * Second := by
    intro events now nonce timestamp
    have httl : (InitSecurity.run events).ttl = 60 * Second := run_ttl events InitSecurity
    rw [IsReplay_verdict, Option.isSome_iff_exists, httl]
    constructor
    · rintro (⟨t0, h⟩ | h)
      · obtain ⟨pre, post, ts0, h1, h2, h3⟩ := (run_lookup_iff nonce t0 events).1 h
        exact Or.inl ⟨pre, post, t0, ts0, h1, h2, h3⟩
      · exact Or.inr h
    · rintro (⟨pre, post, t0, ts0, h1, h2, h3⟩ | h)
      · exact Or.inl ⟨t0, (run_lookup_iff nonce t0 events).2 ⟨pre, post, ts0, h1, h2, h3⟩⟩
      · exact Or.inr h
  refine ⟨fun s now nonce timestamp => ⟨?_, ?_, IsReplay_lookup s now nonce timestamp⟩,
    fun s sweep n => ⟨rfl, cleanup_lookup s sweep n⟩, hrun, ?_⟩
  · rw [IsReplay_verdict, Option.isSome_iff_exists]
  · exact IsReplay_store s now nonce timestamp
  · intro pre post nonce t0 ts0 now timestamp hv hmono hwin
    refine (hrun _ now nonce timestamp).2 (Or.inl ⟨pre, post, t0, ts0, rfl, hv, ?_⟩)
    intro sweep hm
    have h1 : sweep ≤ now := hmono _ hm
    have h2 : sweep - t0 ≤ now - t0 := sub_le_sub_right h1 t0
    exact le_trans h2 hwin

set_option maxRecDepth 100000 in
/-- Instance of C3: `n-1` is recorded at time 0 and the reaper sweeps at 60 s; a
request with that nonce at 60 s is reported as a replay. -/
theorem replay_rejection_witness :
    (InitSecurity.IsReplay 0 (ascii "n-1") 0).1 = false ∧
    ((InitSecurity.run [.isReplay 0 (ascii "n-1") 0, .cleanup (60 * Second)]).IsReplay
      (60 * Second) (ascii "n-1") 60).1 = true :=
  ⟨by decide,
    replay_rejection.2.2.2 [] [.cleanup (60 * Second)] (ascii "n-1") 0 0 (60 * Second) 60
      (by decide) (by decide) (by decide)⟩

/-- Counterexample to C3 as stated.  The nonce `n-1` is recorded at time 0; the
reaper runs at 60 s and keeps it (60 s is not more than the TTL).  At 90 s, a
request with that nonce and the fresh timestamp 90 is reported as a replay,
although the nonce was observed 90 s ago, outside the 60 s window, and
`|now - t| = 0`. -/
theorem replay_rejection_counterexample :
    (InitSecurity.IsReplay 0 (ascii "n-1") 0).1 = false ∧
    sweptStore.seenNonces.lookup (ascii "n-1") = some 0 ∧
    sweptStore.ttl = 60 * Second ∧
    ¬ ((sweptStore.IsReplay (90 * Second) (ascii "n-1") 90).1 = true ↔
        ((∃ seenAt, sweptStore.seenNonces.lookup (ascii "n-1") = some seenAt ∧
            90 * Second - seenAt ≤ sweptStore.ttl) ∨
          |90 * Second - 90 * Second| > sweptStore.ttl)) := by
  have hrun : (sweptStore.IsReplay (90 * Second) (ascii "n-1") 90).1 = true := by decide
  have hlook : sweptStore.seenNonces.lookup (ascii "n-1") = some 0 := by decide
  have httl : sweptStore.ttl = 60 * Second := by decide
  refine ⟨by decide, hlook, httl, ?_⟩
  intro hiff
  rcases hiff.1 hrun with ⟨seenAt, hs, hle⟩ | habs
  · rw [hlook] at hs
    cases hs
    rw [httl] at hle
    revert hle
    decide
  · rw [httl] at habs
    revert habs
    decide


/-- Claim C12 (frame parsing is total and guarded).  For every frame `F`, secret
`ss` and session id, `DecryptAESGCMWithSession` returns without any out-of-range
slice or index access.  It returns an error when `len(ss) != 32`, when
`len(F) < 2`, when `len(F) < 2 + L` with `L = 256 * F[0] + F[1]`, or when
`L < 12`.  Otherwise it splits `F` into `enc_salt_iv = F[2:2+L]` and
`enc_payload = F[2+L:]`, opens `enc_salt_iv[12:]` under the reversed secret with
nonce `enc_salt_iv[:12]`, requires the result to be exactly 28 bytes, and opens
`enc_payload` with salt its first 16 bytes and IV its last 12. -/
theorem frame_parsing_guarded (P : Primitives) (F ss : Bytes) (S : GoString) :
    isPanic (DecryptAESGCMWithSession P F ss S) = false ∧
    ((ss.length ≠ 32 ∨ F.length < 2 ∨ F.length < 2 + declaredLength F ∨ declaredLength F < 12) →
      ∃ e, DecryptAESGCMWithSession P F ss S = .error e) ∧
    (¬ (ss.length ≠ 32 ∨ F.length < 2 ∨ F.length < 2 + declaredLength F ∨
        declaredLength F < 12) →
      DecryptAESGCMWithSession P F ss S =
        match P.Open ss.reverse (((F.take (2 + declaredLength F)).drop 2).take 12)
            (((F.take (2 + declaredLength F)).drop 2).drop 12) [] with
        | none => .error (.saltIvDecryptFailed .directDecryptFailed)
        | some saltIv =>
          if saltIv.length ≠ 28 then .error .invalidSaltIvLength
          else
            match P.Open ((List.range 32).map (P.hkdf ss (saltIv.take 16) (sessionInfo S)))
                (saltIv.drop 16) (F.drop (2 + declaredLength F)) (sessionInfo S) with
            | none => .error .gcmDecryptFailed
            | some pt => .ok pt) := by
  refine ⟨decrypt_no_panic P F ss S, ?_, ?_⟩
  · intro h
    by_cases hss : ss.length = 32
    · rw [decrypt_cases P F ss S hss]
      by_cases h2 : F.length < 2
      · exact ⟨_, by rw [if_pos h2]⟩
      by_cases h3 : F.length < 2 + declaredLength F
      · exact ⟨_, by rw [if_neg h2, if_pos h3]⟩
      by_cases h12 : declaredLength F < 12
      · exact ⟨_, by rw [if_neg h2, if_neg h3, if_pos h12]⟩
      · rcases h with h | h | h | h
        · exact absurd hss h
        · exact absurd h h2
        · exact absurd h h3
        · exact absurd h h12
    · exact ⟨.secretLength ss.length, by simp [DecryptAESGCMWithSession, hss]⟩
  · intro h
    simp only [not_or, not_not, not_lt] at h
    obtain ⟨hss, h2, h3, h12⟩ := h
    have hcases := decrypt_cases P F ss S hss
    rw [if_neg (by omega), if_neg (by omega), if_neg (by omega)] at hcases
    exact hcases

/-- Instance of C12: a frame that declares 5 bytes of salt/IV and holds 1 is an
error. -/
theorem frame_parsing_guarded_witness :
    ∃ e, DecryptAESGCMWithSession modelPrimitives [0, 5, 1] (List.replicate 32 0) (ascii "s")
      = .error e :=
  (frame_parsing_guarded modelPrimitives [0, 5, 1] (List.replicate 32 0) (ascii "s")).2.1
    (Or.inr (Or.inr (Or.inl (by decide))))

/-- Claim C11 (nonce TTL reap).  Take any run of the replay store from
`InitSecurity` in which a nonce is recorded at time `t0` and not recorded again,
and in which the reaper runs every minute (its sweeps are at `start + k` minutes,
`k = 1, 2, …`, with `start ≤ t0`).  At any time `τ ≥ t0 + 2 * replay_ttl`, that
is, once every call up to `τ` has run, the sweeps due by `τ` among them, the
store has no entry for the nonce.  And each `cleanup` at time `now` removes
exactly the entries with `now - observed_at > replay_ttl`, keeping all others
as they are. -/
theorem nonce_ttl_reap :
    (∀ (pre post : List ReplayEvent) (nonce : GoString) (t0 : Time) (timestamp : Int)
        (start τ : Time),
      ((InitSecurity.run pre).IsReplay t0 nonce timestamp).1 = false →
      ((InitSecurity.run pre).IsReplay t0 nonce timestamp).2.records nonce post = false →
      start ≤ t0 →
      (∀ k : Nat, 1 ≤ k → t0 < start + k * Minute → start + k * Minute ≤ τ →
        ReplayEvent.cleanup (start + k * Minute) ∈ post) →
      t0 + 2 * (60 * Second) ≤ τ →
      (((InitSecurity.run pre).IsReplay t0 nonce timestamp).2.run post).seenNonces.lookup nonce
        = none) ∧
    (∀ (s : ReplayProtectionStore) (now : Time) (n : GoString),
      (s.cleanup now).ttl = s.ttl ∧
      (s.cleanup now).seenNonces.lookup n =
        match s.seenNonces.lookup n with
        | some seenAt => if now - seenAt > s.ttl then none else some seenAt
        | none => none) := by
  refine ⟨?_, fun s now n => ⟨rfl, cleanup_lookup s now n⟩⟩
  intro pre post nonce t0 timestamp start τ hrec hnot hstart hsched hτ
  obtain ⟨k, hk1, hlo, hhi⟩ := sweep_in_window start t0 hstart
  have hM : Minute = 60 * Second := rfl
  rw [hM] at hlo hhi hsched
  have httl : ((InitSecurity.run pre).IsReplay t0 nonce timestamp).2.ttl = 60 * Second := by
    have h1 := step_ttl (InitSecurity.run pre) (.isReplay t0 nonce timestamp)
    have h2 := run_ttl pre InitSecurity
    show ((InitSecurity.run pre).step (.isReplay t0 nonce timestamp)).ttl = _
    rw [h1, h2]
    rfl
  have hlook : ((InitSecurity.run pre).IsReplay t0 nonce timestamp).2.seenNonces.lookup nonce
      = some t0 := by
    rw [IsReplay_store, hrec]
    simp
  have hpos : (0 : Int) < 60 * Second := by decide
  have hmem : ReplayEvent.cleanup (start + k * (60 * Second)) ∈ post :=
    hsched k hk1 (by linarith) (by linarith)
  apply run_lookup_swept nonce t0 (start + k * (60 * Second)) post _ (Or.inl hlook) hnot _ hmem
  rw [httl]
  linarith

set_option maxRecDepth 100000 in
/-- Instance of C11: `n-1` is recorded at time 0 and the reaper sweeps at 60 s and
120 s, with a replayed request in between.  The entry survives the sweep at
60 s and is gone after the sweep at 120 s. -/
theorem nonce_ttl_reap_witness :
    ((InitSecurity.IsReplay 0 (ascii "n-1") 0).2.run
        [.cleanup (60 * Second)]).seenNonces.lookup (ascii "n-1") = some 0 ∧
    ((InitSecurity.IsReplay 0 (ascii "n-1") 0).2.run
        [.cleanup (0 + (1 : Nat) * Minute), .isReplay (90 * Second) (ascii "n-1") 90,
          .cleanup (0 + (2 : Nat) * Minute)]).seenNonces.lookup (ascii "n-1") = none :=
  ⟨by decide,
    nonce_ttl_reap.1 [] [.cleanup (0 + (1 : Nat) * Minute),
        .isReplay (90 * Second) (ascii "n-1") 90, .cleanup (0 + (2 : Nat) * Minute)]
      (ascii "n-1") 0 0 0 (120 * Second) (by decide) (by decide) (le_refl _)
      (by
        intro k hk _ hle
        have hk2 : k ≤ 2 := by
          have h1 : (k : Int) * 60000000000 ≤ 120000000000 := by
            have : (0 : Int) + k * Minute ≤ 120 * Second := hle
            simpa [Minute, Second] using this
          omega
        interval_cases k
        · simp
        · simp)
      (by decide)⟩

end KyberLink
